import Mathlib

/-!
# Validator analytics: state accessors, HTTP handlers and panic recovery

A shallow embedding of

* `beacon-chain/state/state-native/getters_attestation.go`
* `beacon-chain/rpc/prysm/validator/handlers.go`
* `beacon-chain/rpc/prysm/validator/validator_performance.go`
* `monitoring/tracing/recovery_interceptor_option.go`

Go pointers and slices are modelled over an explicit store (`World`): a slice of
pointers is `nil` or the identifier of a backing array, a pointer is `nil` or the
address of an object.  The read/write lock of the state and every read of an
attestation field are recorded in the world's event log.
-/

namespace StateNative

/-- The two fork-gated attestation fields of `BeaconState`. -/
inductive Field
  | previous
  | current
  deriving DecidableEq, Repr

/-- Observable steps of an accessor: operations on `b.lock`, reads of an
attestation field of the state, and entry into a `...Val` helper. -/
inductive Event
  | rlock
  | runlock
  | lock
  | unlock
  | readField (f : Field)
  | enterVal (f : Field)
  deriving DecidableEq, Repr

/-- A Go pointer `*ethpb.PendingAttestation`: `none` is `nil`, `some a` is the
address `a` of an object in the store. -/
abbrev Ptr := Option Nat

/-- A Go slice `[]*ethpb.PendingAttestation`: `none` is the `nil` slice, `some id`
is a slice over the whole backing array `id`. -/
abbrev Slice := Option Nat

/-- The store and the lock of one beacon state.  `α` is the contents of a
`PendingAttestation` object (its declaration is not part of the sources at hand). -/
structure World (α : Type) where
  arrays : List (List Ptr)
  objs : List α
  readers : Nat
  log : List Event

/-- The part of `BeaconState` that the accessors use. -/
structure BeaconState where
  version : Nat
  previousEpochAttestations : Slice
  currentEpochAttestations : Slice
  deriving DecidableEq, Repr

/-- Modelled from the spec: `version.Phase0`, the tag of the earliest fork (the
gating fork of the attestation lists); fork tags are an ordered enumeration. -/
def Phase0 : Nat := 0

/-- The typed error value "unsupported for this fork": which accessor, which version. -/
structure NotSupportedError where
  funcName : String
  version : Nat
  deriving DecidableEq, Repr

/-- Modelled from the spec: `errNotSupported(funcName, ver)` builds the typed
`ErrUnsupportedForVersion{field, version}` error; it never yields `nil`. -/
def errNotSupported (funcName : String) (ver : Nat) : NotSupportedError :=
  ⟨funcName, ver⟩

variable {α : Type}

/-- Selects an attestation field of the state. -/
def BeaconState.field (b : BeaconState) : Field → Slice
  | Field.previous => b.previousEpochAttestations
  | Field.current => b.currentEpochAttestations

/-- Appends an event to the log. -/
def emit (e : Event) (w : World α) : World α :=
  { w with log := w.log ++ [e] }

/-- The call `b.lock.RLock()`. -/
def RLock (w : World α) : World α :=
  emit Event.rlock { w with readers := w.readers + 1 }

/-- The call `b.lock.RUnlock()`. -/
def RUnlock (w : World α) : World α :=
  emit Event.runlock { w with readers := w.readers - 1 }

/-- Contents of the backing array `id` (empty when there is no such array). -/
def arr (w : World α) (id : Nat) : List Ptr :=
  (w.arrays[id]?).getD []

/-- Dereferences a pointer: `none` for `nil` (and for an address outside the store). -/
def deref (w : World α) (p : Ptr) : Option α :=
  p.bind fun a => w.objs[a]?

/-- The value a slice denotes: `none` for `nil`, else the contents of its elements. -/
def sliceView (w : World α) (s : Slice) : Option (List (Option α)) :=
  s.map fun id => (arr w id).map (deref w)

/-- The builtin `make([]*ethpb.PendingAttestation, n)`: a new backing array of `n`
nil pointers; returns the new slice. -/
def make (w : World α) (n : Nat) : World α × Nat :=
  ({ w with arrays := w.arrays ++ [List.replicate n none] }, w.arrays.length)

/-- The assignment `res[i] = p`. -/
def setElem (w : World α) (res i : Nat) (p : Ptr) : World α :=
  { w with arrays := w.arrays.set res ((arr w res).set i p) }

/-- Modelled from the spec: `(*ethpb.PendingAttestation).Copy()`, the element-wise
clone of §4.1 ("full independent deep copy ... element-wise clone, not a reference
slice").  `nil` is copied to `nil`; otherwise a new object with the same contents is
allocated and its address returned.  (An address outside the store, which no Go
pointer is, is treated like `nil`.) -/
def Copy (w : World α) (p : Ptr) : World α × Ptr :=
  match deref w p with
  | none => (w, none)
  | some v => ({ w with objs := w.objs ++ [v] }, some w.objs.length)

/-- One iteration of the copy loop: `res[i] = b.<field>[i].Copy()`. -/
def copyStep (f : Field) (src res i : Nat) (w : World α) : World α :=
  let w1 := emit (Event.readField f) w
  let r := Copy w1 ((arr w1 src).getD i none)
  setElem r.1 res i r.2

/-- The loop `for i := 0; i < len(res); i++ { res[i] = b.<field>[i].Copy() }`,
entered at index `i` with `k = len(res) - i` iterations left. -/
def copyLoop (f : Field) (src res : Nat) : Nat → Nat → World α → World α
  | 0, _, w => w
  | k + 1, i, w => copyLoop f src res k (i + 1) (copyStep f src res i w)

/-- The helper `previousEpochAttestationsVal` ("this assumes that a lock is already
held on BeaconState"): the nil check, `make` of `len(b.previousEpochAttestations)`
elements, the copy loop up to `len(res)`. -/
def previousEpochAttestationsVal (b : BeaconState) (w : World α) : World α × Slice :=
  let w0 := emit (Event.readField Field.previous) (emit (Event.enterVal Field.previous) w)
  match b.previousEpochAttestations with
  | none => (w0, none)
  | some src =>
    let w1 := emit (Event.readField Field.previous) w0
    let m := make w1 (arr w1 src).length
    (copyLoop Field.previous src m.2 (arr m.1 m.2).length 0 m.1, some m.2)

/-- The accessor `PreviousEpochAttestations`: version gate, nil check, then
`RLock`, the helper, and the deferred `RUnlock` once the result is computed. -/
def PreviousEpochAttestations (b : BeaconState) (w : World α) :
    World α × Slice × Option NotSupportedError :=
  if b.version ≠ Phase0 then
    (w, none, some (errNotSupported "PreviousEpochAttestations" b.version))
  else
    let w0 := emit (Event.readField Field.previous) w
    if b.previousEpochAttestations = none then
      (w0, none, none)
    else
      let r := previousEpochAttestationsVal b (RLock w0)
      (RUnlock r.1, r.2, none)

/-- The helper `currentEpochAttestationsVal` ("this assumes that a lock is already
held on BeaconState"). -/
def currentEpochAttestationsVal (b : BeaconState) (w : World α) : World α × Slice :=
  let w0 := emit (Event.readField Field.current) (emit (Event.enterVal Field.current) w)
  match b.currentEpochAttestations with
  | none => (w0, none)
  | some src =>
    let w1 := emit (Event.readField Field.current) w0
    let m := make w1 (arr w1 src).length
    (copyLoop Field.current src m.2 (arr m.1 m.2).length 0 m.1, some m.2)

/-- The accessor `CurrentEpochAttestations`. -/
def CurrentEpochAttestations (b : BeaconState) (w : World α) :
    World α × Slice × Option NotSupportedError :=
  if b.version ≠ Phase0 then
    (w, none, some (errNotSupported "CurrentEpochAttestations" b.version))
  else
    let w0 := emit (Event.readField Field.current) w
    if b.currentEpochAttestations = none then
      (w0, none, none)
    else
      let r := currentEpochAttestationsVal b (RLock w0)
      (RUnlock r.1, r.2, none)

/-- A pointer is valid in a world: `nil` or the address of an existing object. -/
def ValidPtr (w : World α) (p : Ptr) : Prop :=
  ∀ a, p = some a → a < w.objs.length

/-- The pointer that iteration `i` of the loop stores in `res[i]`: the result of
`Copy` on element `i` of the source array, in the world of that iteration. -/
def stepPtr (f : Field) (src i : Nat) (w : World α) : Ptr :=
  (Copy (emit (Event.readField f) w) ((arr w src).getD i none)).2

/-- The world in which the copy loop of the accessor of `f` starts, when the
accessor is called in `w` on a Phase0 state whose field is the array `src`: after
the nil check, `RLock`, the entry into the helper, its nil check, the read of the
length and `make`. -/
def loopStart (f : Field) (src : Nat) (w : World α) : World α :=
  (make (emit (Event.readField f) (emit (Event.readField f) (emit (Event.enterVal f)
    (RLock (emit (Event.readField f) w))))) (arr w src).length).1

/-- The state's storage is well formed in a world: every non-nil attestation field
is an existing backing array, and every element of it is a valid pointer. -/
def WellFormed (b : BeaconState) (w : World α) : Prop :=
  ∀ f src, b.field f = some src →
    src < w.arrays.length ∧ ∀ p ∈ arr w src, ValidPtr w p

/-- The world an accessor returns on a Phase0 state with a non-nil field. -/
def finalWorld (f : Field) (src : Nat) (w : World α) : World α :=
  RUnlock (copyLoop f src w.arrays.length (arr w src).length 0 (loopStart f src w))

/-- A sample store: one backing array `[&obj0, nil, &obj1]` over two objects. -/
def sampleWorld : World Nat :=
  { arrays := [[some 0, none, some 1]], objs := [7, 9], readers := 0, log := [] }

/-- A sample Phase0 state whose previous-epoch field is the array of `sampleWorld`
and whose current-epoch field is unset. -/
def sampleState : BeaconState :=
  { version := 0, previousEpochAttestations := some 0, currentEpochAttestations := none }

/-- A sample state of a later fork with the same fields as `sampleState`. -/
def laterForkState : BeaconState :=
  { version := 1, previousEpochAttestations := some 0, currentEpochAttestations := none }

/-- A change a caller makes through a slice `r` it has received from an accessor;
`x k` are pointer variables of the caller. -/
inductive Mutation (α : Type)
  | setNil (i : Nat)
  | copyElem (i j : Nat)
  | swap (i j : Nat)
  | setNew (i : Nat) (v : α)
  | modify (i : Nat) (v : α)
  | load (k i : Nat)
  | storeVar (i k : Nat)
  | modifyVar (k : Nat) (v : α)

/-- The pointer variables of a caller, all nil at first. -/
abbrev Vars := Nat → Ptr

/-- Allocation of a new object `&ethpb.PendingAttestation{...}` by the caller. -/
def alloc (w : World α) (v : α) : World α × Nat :=
  ({ w with objs := w.objs ++ [v] }, w.objs.length)

/-- A write through a pointer, `*p = v`: any change of the contents of an object. -/
def store (w : World α) (a : Nat) (v : α) : World α :=
  { w with objs := w.objs.set a v }

/-- A write through a pointer that may be nil (no effect then). -/
def storeAt (w : World α) (p : Ptr) (v : α) : World α :=
  match p with
  | none => w
  | some a => store w a v

/-- The effect of one mutation through the slice `r`: `r[i] = nil`, `r[i] = r[j]`,
`r[i], r[j] = r[j], r[i]`, `r[i] = &PendingAttestation{...}`, a change of the object
`r[i]` points to, `x[k] = r[i]`, `r[i] = x[k]`, and a change of the object `x[k]`
points to. -/
def applyMutation (r : Nat) (st : World α × Vars) : Mutation α → World α × Vars
  | Mutation.setNil i => (setElem st.1 r i none, st.2)
  | Mutation.copyElem i j => (setElem st.1 r i ((arr st.1 r).getD j none), st.2)
  | Mutation.swap i j =>
    (setElem (setElem st.1 r i ((arr st.1 r).getD j none)) r j ((arr st.1 r).getD i none),
      st.2)
  | Mutation.setNew i v => (setElem (alloc st.1 v).1 r i (some (alloc st.1 v).2), st.2)
  | Mutation.modify i v => (storeAt st.1 ((arr st.1 r).getD i none) v, st.2)
  | Mutation.load k i =>
    (st.1, fun k1 => if k1 = k then (arr st.1 r).getD i none else st.2 k1)
  | Mutation.storeVar i k => (setElem st.1 r i (st.2 k), st.2)
  | Mutation.modifyVar k v => (storeAt st.1 (st.2 k) v, st.2)

/-- A caller mutates the slice `s` it received, step by step (a nil slice has no
element to mutate). -/
def mutate (s : Slice) (w : World α) (ms : List (Mutation α)) : World α :=
  match s with
  | none => w
  | some r => (ms.foldl (applyMutation r) (w, fun _ => none)).1

/-- Every pointer variable of the caller is nil or an object that `w` did not have. -/
def VarsNew (w : World α) (x : Vars) : Prop :=
  ∀ k a, x k = some a → w.objs.length ≤ a

/-- The store `w1` extends `w` by one backing array, keeps every array and every
object that `w` had, and all elements of its array `r` are nil or objects that `w`
did not have. -/
structure Isolated (w w1 : World α) (r : Nat) : Prop where
  arrays_length : w1.arrays.length = w.arrays.length + 1
  arrays_old : ∀ id, id < w.arrays.length → arr w1 id = arr w id
  objs_length : w.objs.length ≤ w1.objs.length
  objs_old : ∀ a, a < w.objs.length → w1.objs[a]? = w.objs[a]?
  elems_new : ∀ a, some a ∈ arr w1 r → w.objs.length ≤ a

/-- The name under which the accessor of a field reports the version error. -/
def accessorName : Field → String
  | Field.previous => "PreviousEpochAttestations"
  | Field.current => "CurrentEpochAttestations"

/-- The helper of the field `f`: `previousEpochAttestationsVal` or
`currentEpochAttestationsVal`. -/
def attestationsVal : Field → BeaconState → World α → World α × Slice
  | Field.previous => previousEpochAttestationsVal
  | Field.current => currentEpochAttestationsVal

/-- The accessor of the field `f`: `PreviousEpochAttestations` or
`CurrentEpochAttestations`. -/
def attestations : Field → BeaconState → World α → World α × Slice × Option NotSupportedError
  | Field.previous => PreviousEpochAttestations
  | Field.current => CurrentEpochAttestations

/-- The world after a caller has obtained a slice from the accessor of `f` in `w`
and applied the mutations `ms` to that slice. -/
def afterMutation (f : Field) (b : BeaconState) (w : World α) (ms : List (Mutation α)) :
    World α :=
  mutate (attestations f b w).2.1 (attestations f b w).1 ms

/-- Sample mutations of a result: change an element's contents, reorder, replace. -/
def sampleMutations : List (Mutation Nat) :=
  [Mutation.modify 0 100, Mutation.swap 0 2, Mutation.setNil 1, Mutation.setNew 1 5,
    Mutation.copyElem 2 1, Mutation.modify 2 6, Mutation.load 0 0, Mutation.setNil 0,
    Mutation.modifyVar 0 8, Mutation.storeVar 1 0]

/-- The events of one call of the accessor of `f`: what the call appends to the log. -/
def trace (f : Field) (b : BeaconState) (w : World α) : List Event :=
  (attestations f b w).1.log.drop w.log.length

/-- Checks a trace against the locking discipline, given the number `n` of read
locks the call holds at its start: every read of an attestation field and every
entry into a `...Val` helper happens while a read lock is held. -/
def readsUnderLock : Nat → List Event → Bool
  | _, [] => true
  | n, Event.rlock :: t => readsUnderLock (n + 1) t
  | n, Event.runlock :: t => readsUnderLock (n - 1) t
  | n, Event.readField _ :: t => decide (0 < n) && readsUnderLock n t
  | n, Event.enterVal _ :: t => decide (0 < n) && readsUnderLock n t
  | n, Event.lock :: t => readsUnderLock n t
  | n, Event.unlock :: t => readsUnderLock n t

end StateNative

namespace Validator

/-- The status `http.StatusBadRequest`. -/
def StatusBadRequest : Nat := 400

/-- A `*core.RpcError`, by the text of the error it wraps (`rpcError.Err.Error()`) and
its reason (`core.ErrorReason`). -/
structure RpcError where
  Err : String
  Reason : Nat
  deriving DecidableEq, Repr

/-- An error returned by `json.NewDecoder(r.Body).Decode(&req)`: whether
`errors.Is(err, io.EOF)` holds, and the text `err.Error()`. -/
structure DecodeError where
  isEOF : Bool
  text : String
  deriving DecidableEq, Repr

/-- The message `ethpb.ValidatorParticipation`; the rate is a `float32`, kept by its
bits. -/
structure ValidatorParticipation where
  GlobalParticipationRate : Nat
  VotedEther : Nat
  EligibleEther : Nat
  CurrentEpochActiveGwei : Nat
  CurrentEpochAttestingGwei : Nat
  CurrentEpochTargetAttestingGwei : Nat
  PreviousEpochActiveGwei : Nat
  PreviousEpochAttestingGwei : Nat
  PreviousEpochTargetAttestingGwei : Nat
  PreviousEpochHeadAttestingGwei : Nat
  deriving DecidableEq, Repr

/-- The result of `CoreService.ValidatorParticipation`. -/
structure ValidatorParticipationResponse where
  Epoch : Nat
  Finalized : Bool
  Participation : ValidatorParticipation
  deriving DecidableEq, Repr

/-- The response field `structs.ValidatorParticipation`: every number as a string. -/
structure ValidatorParticipationJson where
  GlobalParticipationRate : String
  VotedEther : String
  EligibleEther : String
  CurrentEpochActiveGwei : String
  CurrentEpochAttestingGwei : String
  CurrentEpochTargetAttestingGwei : String
  PreviousEpochActiveGwei : String
  PreviousEpochAttestingGwei : String
  PreviousEpochTargetAttestingGwei : String
  PreviousEpochHeadAttestingGwei : String
  deriving DecidableEq, Repr

/-- The response `structs.GetValidatorParticipationResponse`. -/
structure GetValidatorParticipationResponse where
  Epoch : String
  Finalized : Bool
  Participation : ValidatorParticipationJson
  deriving DecidableEq, Repr

/-- The result of `CoreService.ValidatorActiveSetChanges` (`ethpb.ActiveSetChanges`):
public keys are byte strings, indices are `primitives.ValidatorIndex` (uint64). -/
structure CoreActiveSetChanges where
  Epoch : Nat
  ActivatedPublicKeys : List (List Nat)
  ActivatedIndices : List Nat
  ExitedPublicKeys : List (List Nat)
  ExitedIndices : List Nat
  SlashedPublicKeys : List (List Nat)
  SlashedIndices : List Nat
  EjectedPublicKeys : List (List Nat)
  EjectedIndices : List Nat
  deriving DecidableEq, Repr

/-- The response `structs.ActiveSetChanges`. -/
structure ActiveSetChanges where
  Epoch : String
  ActivatedPublicKeys : List String
  ActivatedIndices : List String
  ExitedPublicKeys : List String
  ExitedIndices : List String
  SlashedPublicKeys : List String
  SlashedIndices : List String
  EjectedPublicKeys : List String
  EjectedIndices : List String
  deriving DecidableEq, Repr

/-- The request body `structs.GetValidatorPerformanceRequest`. -/
structure GetValidatorPerformanceRequest where
  PublicKeys : List (List Nat)
  Indices : List Nat
  deriving DecidableEq, Repr

/-- The request `ethpb.ValidatorPerformanceRequest` passed to the core service. -/
structure ValidatorPerformanceRequest where
  PublicKeys : List (List Nat)
  Indices : List Nat
  deriving DecidableEq, Repr

/-- The result of `CoreService.ComputeValidatorPerformance`
(`ethpb.ValidatorPerformanceResponse`). -/
structure ValidatorPerformanceResponse where
  PublicKeys : List (List Nat)
  CorrectlyVotedSource : List Bool
  CorrectlyVotedTarget : List Bool
  CorrectlyVotedHead : List Bool
  CurrentEffectiveBalances : List Nat
  BalancesBeforeEpochTransition : List Nat
  BalancesAfterEpochTransition : List Nat
  MissingValidators : List (List Nat)
  InactivityScores : List Nat
  deriving DecidableEq, Repr

/-- The response `structs.GetValidatorPerformanceResponse`. -/
structure GetValidatorPerformanceResponse where
  PublicKeys : List (List Nat)
  CorrectlyVotedSource : List Bool
  CorrectlyVotedTarget : List Bool
  CorrectlyVotedHead : List Bool
  CurrentEffectiveBalances : List Nat
  BalancesBeforeEpochTransition : List Nat
  BalancesAfterEpochTransition : List Nat
  MissingValidators : List (List Nat)
  InactivityScores : List Nat
  deriving DecidableEq, Repr

/-- What a handler does to the outside, in order: spans, calls of its collaborators,
and what it writes to the `http.ResponseWriter`. -/
inductive Effect
  | startSpan (name : String)
  | spanEnd
  | staterState (stateId : String)
  | coreValidatorParticipation (epoch : Nat)
  | coreValidatorActiveSetChanges (epoch : Nat)
  | coreComputeValidatorPerformance (req : ValidatorPerformanceRequest)
  | handleError (message : String) (code : Nat)
  | writeError (message : String) (code : Nat)
  | writeStateFetchError (err : String)
  | writeJsonParticipation (resp : GetValidatorParticipationResponse)
  | writeJsonActiveSetChanges (resp : ActiveSetChanges)
  | writeJsonPerformance (resp : GetValidatorPerformanceResponse)
  deriving DecidableEq, Repr

/-- The collaborator `s.Stater`: `State(ctx, []byte(stateId))` yields a state, of which
the handlers use the slot only, or a fetch error (by its text). -/
structure Stater where
  State : String → Except String Nat

/-- The collaborator `s.CoreService`. -/
structure CoreService where
  ValidatorParticipation : Nat → Except RpcError ValidatorParticipationResponse
  ValidatorActiveSetChanges : Nat → Except RpcError CoreActiveSetChanges
  ComputeValidatorPerformance :
    ValidatorPerformanceRequest → Except RpcError ValidatorPerformanceResponse

/-- The handlers' receiver `*Server`, together with the functions of other packages
that the handlers call and whose code is not part of the sources at hand:
`slots.ToEpoch`, `core.ErrorReasonToHTTP`, the `%f` verb of `fmt.Sprintf`, and the
JSON decoder of the request body. -/
structure Server where
  Stater : Stater
  CoreService : CoreService
  ToEpoch : Nat → Nat
  ErrorReasonToHTTP : Nat → Nat
  sprintfF : Nat → String
  jsonDecode : String → Except DecodeError GetValidatorPerformanceRequest

/-- The part of `*http.Request` that the handlers use. -/
structure Request where
  PathValue : String → String
  Body : String

/-- The verb `%d` of `fmt.Sprintf` on an unsigned integer: its decimal string. -/
def sprintfD (u : Nat) : String := Nat.repr u

/-- A hexadecimal digit in lower case. -/
def hexDigit (n : Nat) : Char := Nat.digitChar (n % 16)

/-- The library function `hexutil.Encode`: `0x` followed by two hexadecimal digits in
lower case for every byte. -/
def hexutilEncode (b : List Nat) : String :=
  "0x" ++ String.mk (b.flatMap fun x => [hexDigit (x / 16), hexDigit x])

/-- The loop `for i, b := range xs { s[i] = g(b) }`, entered at index `i`. -/
def fillLoop {β : Type} (g : β → String) : List β → Nat → List String → List String
  | [], _, s => s
  | b :: rest, i, s => fillLoop g rest (i + 1) (s.set i (g b))

/-- The function `byteSlice2dToStringSlice`: `make([]string, len(byteArrays))`, then
`s[i] = hexutil.Encode(b)` for every element. -/
def byteSlice2dToStringSlice (byteArrays : List (List Nat)) : List String :=
  fillLoop hexutilEncode byteArrays 0 (List.replicate byteArrays.length "")

/-- The function `uint64SliceToStringSlice`: `make([]string, len(indices))`, then
`s[i] = fmt.Sprintf("%d", u)` for every element. -/
def uint64SliceToStringSlice (indices : List Nat) : List String :=
  fillLoop sprintfD indices 0 (List.replicate indices.length "")

/-- The handler `GetParticipation`; the deferred `span.End()` closes every path. -/
def GetParticipation (s : Server) (r : Request) : List Effect :=
  let stateId := r.PathValue "state_id"
  Effect.startSpan "validator.GetParticipation" ::
  (if stateId = "" then
    [Effect.handleError "state_id is required in URL params" StatusBadRequest]
  else
    Effect.staterState stateId ::
    (match s.Stater.State stateId with
    | Except.error err => [Effect.writeStateFetchError err]
    | Except.ok slot =>
      let stEpoch := s.ToEpoch slot
      Effect.coreValidatorParticipation stEpoch ::
      (match s.CoreService.ValidatorParticipation stEpoch with
      | Except.error rpcError =>
        [Effect.handleError rpcError.Err (s.ErrorReasonToHTTP rpcError.Reason)]
      | Except.ok vp =>
        [Effect.writeJsonParticipation
          { Epoch := sprintfD vp.Epoch
            Finalized := vp.Finalized
            Participation :=
              { GlobalParticipationRate := s.sprintfF vp.Participation.GlobalParticipationRate
                VotedEther := sprintfD vp.Participation.VotedEther
                EligibleEther := sprintfD vp.Participation.EligibleEther
                CurrentEpochActiveGwei := sprintfD vp.Participation.CurrentEpochActiveGwei
                CurrentEpochAttestingGwei := sprintfD vp.Participation.CurrentEpochAttestingGwei
                CurrentEpochTargetAttestingGwei :=
                  sprintfD vp.Participation.CurrentEpochTargetAttestingGwei
                PreviousEpochActiveGwei := sprintfD vp.Participation.PreviousEpochActiveGwei
                PreviousEpochAttestingGwei :=
                  sprintfD vp.Participation.PreviousEpochAttestingGwei
                PreviousEpochTargetAttestingGwei :=
                  sprintfD vp.Participation.PreviousEpochTargetAttestingGwei
                PreviousEpochHeadAttestingGwei :=
                  sprintfD vp.Participation.PreviousEpochHeadAttestingGwei } }]))) ++
  [Effect.spanEnd]

/-- The handler `GetActiveSetChanges`. -/
def GetActiveSetChanges (s : Server) (r : Request) : List Effect :=
  let stateId := r.PathValue "state_id"
  Effect.startSpan "validator.GetActiveSetChanges" ::
  (if stateId = "" then
    [Effect.handleError "state_id is required in URL params" StatusBadRequest]
  else
    Effect.staterState stateId ::
    (match s.Stater.State stateId with
    | Except.error err => [Effect.writeStateFetchError err]
    | Except.ok slot =>
      let stEpoch := s.ToEpoch slot
      Effect.coreValidatorActiveSetChanges stEpoch ::
      (match s.CoreService.ValidatorActiveSetChanges stEpoch with
      | Except.error rpcError =>
        [Effect.handleError rpcError.Err (s.ErrorReasonToHTTP rpcError.Reason)]
      | Except.ok as =>
        [Effect.writeJsonActiveSetChanges
          { Epoch := sprintfD as.Epoch
            ActivatedPublicKeys := byteSlice2dToStringSlice as.ActivatedPublicKeys
            ActivatedIndices := uint64SliceToStringSlice as.ActivatedIndices
            ExitedPublicKeys := byteSlice2dToStringSlice as.ExitedPublicKeys
            ExitedIndices := uint64SliceToStringSlice as.ExitedIndices
            SlashedPublicKeys := byteSlice2dToStringSlice as.SlashedPublicKeys
            SlashedIndices := uint64SliceToStringSlice as.SlashedIndices
            EjectedPublicKeys := byteSlice2dToStringSlice as.EjectedPublicKeys
            EjectedIndices := uint64SliceToStringSlice as.EjectedIndices }]))) ++
  [Effect.spanEnd]

/-- The function `handleHTTPError`: builds a `DefaultJsonError` of the message and
the code and hands it to `httputil.WriteError`. -/
def handleHTTPError (message : String) (code : Nat) : List Effect :=
  [Effect.writeError message code]

/-- The handler `GetPerformance`. -/
def GetPerformance (s : Server) (r : Request) : List Effect :=
  Effect.startSpan "validator.GetPerformance" ::
  (match s.jsonDecode r.Body with
  | Except.error err =>
    if err.isEOF then
      [Effect.handleError "No data submitted" StatusBadRequest]
    else
      [Effect.handleError ("Could not decode request body: " ++ err.text) StatusBadRequest]
  | Except.ok req =>
    let coreReq : ValidatorPerformanceRequest :=
      { PublicKeys := req.PublicKeys, Indices := req.Indices }
    Effect.coreComputeValidatorPerformance coreReq ::
    (match s.CoreService.ComputeValidatorPerformance coreReq with
    | Except.error rpcError =>
      handleHTTPError ("Could not compute validator performance: " ++ rpcError.Err)
        (s.ErrorReasonToHTTP rpcError.Reason)
    | Except.ok computed =>
      [Effect.writeJsonPerformance
        { PublicKeys := computed.PublicKeys
          CorrectlyVotedSource := computed.CorrectlyVotedSource
          CorrectlyVotedTarget := computed.CorrectlyVotedTarget
          CorrectlyVotedHead := computed.CorrectlyVotedHead
          CurrentEffectiveBalances := computed.CurrentEffectiveBalances
          BalancesBeforeEpochTransition := computed.BalancesBeforeEpochTransition
          BalancesAfterEpochTransition := computed.BalancesAfterEpochTransition
          MissingValidators := computed.MissingValidators
          InactivityScores := computed.InactivityScores }])) ++
  [Effect.spanEnd]

/-- The error responses a handler writes, each with its message and status code
(`httputil.HandleError` and `httputil.WriteError`). -/
def writtenErrors : List Effect → List (String × Nat)
  | [] => []
  | Effect.handleError m c :: t => (m, c) :: writtenErrors t
  | Effect.writeError m c :: t => (m, c) :: writtenErrors t
  | _ :: t => writtenErrors t

/-- An effect that writes an error response of any kind. -/
def Effect.isErrorResponse : Effect → Bool
  | Effect.handleError _ _ => true
  | Effect.writeError _ _ => true
  | Effect.writeStateFetchError _ => true
  | _ => false

/-- An effect that is a call of `Stater.State`. -/
def Effect.isStaterCall : Effect → Bool
  | Effect.staterState _ => true
  | _ => false

/-- An effect that is a call of the `CoreService`. -/
def Effect.isCoreCall : Effect → Bool
  | Effect.coreValidatorParticipation _ => true
  | Effect.coreValidatorActiveSetChanges _ => true
  | Effect.coreComputeValidatorPerformance _ => true
  | _ => false

/-- An effect that writes a success body (`httputil.WriteJson`). -/
def Effect.isSuccessBody : Effect → Bool
  | Effect.writeJsonParticipation _ => true
  | Effect.writeJsonActiveSetChanges _ => true
  | Effect.writeJsonPerformance _ => true
  | _ => false

/-- The text `t` occurs in the message `msg`. -/
def containsText (msg t : String) : Prop :=
  ∃ pre post : String, msg = pre ++ t ++ post

/-- The four groups of an active-set-changes report. -/
inductive Group
  | activated
  | exited
  | slashed
  | ejected
  deriving DecidableEq, Repr

/-- The public keys of a group in the core result. -/
def CoreActiveSetChanges.keys (as : CoreActiveSetChanges) : Group → List (List Nat)
  | Group.activated => as.ActivatedPublicKeys
  | Group.exited => as.ExitedPublicKeys
  | Group.slashed => as.SlashedPublicKeys
  | Group.ejected => as.EjectedPublicKeys

/-- The validator indices of a group in the core result. -/
def CoreActiveSetChanges.indices (as : CoreActiveSetChanges) : Group → List Nat
  | Group.activated => as.ActivatedIndices
  | Group.exited => as.ExitedIndices
  | Group.slashed => as.SlashedIndices
  | Group.ejected => as.EjectedIndices

/-- The public keys of a group in the response. -/
def ActiveSetChanges.keys (resp : ActiveSetChanges) : Group → List String
  | Group.activated => resp.ActivatedPublicKeys
  | Group.exited => resp.ExitedPublicKeys
  | Group.slashed => resp.SlashedPublicKeys
  | Group.ejected => resp.EjectedPublicKeys

/-- The validator indices of a group in the response. -/
def ActiveSetChanges.indices (resp : ActiveSetChanges) : Group → List String
  | Group.activated => resp.ActivatedIndices
  | Group.exited => resp.ExitedIndices
  | Group.slashed => resp.SlashedIndices
  | Group.ejected => resp.EjectedIndices

/-- A sample core result: validator 5 slashed, validators 7 and 8 activated. -/
def sampleChanges : CoreActiveSetChanges :=
  { Epoch := 3
    ActivatedPublicKeys := [[170, 1], [187, 2]]
    ActivatedIndices := [7, 8]
    ExitedPublicKeys := []
    ExitedIndices := []
    SlashedPublicKeys := [[204, 3]]
    SlashedIndices := [5]
    EjectedPublicKeys := []
    EjectedIndices := [] }

/-- A sample server whose state is at slot 64 with 32 slots per epoch, and whose core
service works. -/
def sampleServer : Server :=
  { Stater := { State := fun _ => Except.ok 64 }
    CoreService :=
      { ValidatorParticipation := fun e =>
          Except.ok
            { Epoch := e
              Finalized := true
              Participation := ⟨0, 192, 320, 0, 0, 0, 0, 0, 0, 0⟩ }
        ValidatorActiveSetChanges := fun _ => Except.ok sampleChanges
        ComputeValidatorPerformance := fun req =>
          Except.ok ⟨req.PublicKeys, [], [], [], [], [], [], [], []⟩ }
    ToEpoch := fun slot => slot / 32
    ErrorReasonToHTTP := fun _ => 500
    sprintfF := fun _ => "0.600000"
    jsonDecode := fun body =>
      if body = "" then Except.error ⟨true, "EOF"⟩
      else if body = "\x7b\x7d" then Except.ok ⟨[], []⟩
      else Except.error ⟨false, "invalid character"⟩ }

/-- A sample server whose core service fails with an internal error. -/
def failingServer : Server :=
  { sampleServer with
    CoreService :=
      { ValidatorParticipation := fun _ => Except.error ⟨"db closed", 0⟩
        ValidatorActiveSetChanges := fun _ => Except.error ⟨"db closed", 0⟩
        ComputeValidatorPerformance := fun _ => Except.error ⟨"db closed", 0⟩ } }

/-- A request for the state `head` with an empty JSON object as its body. -/
def headRequest : Request :=
  { PathValue := fun k => if k = "state_id" then "head" else "", Body := "\x7b\x7d" }

/-- A request without a state identifier and without a body. -/
def emptyRequest : Request :=
  { PathValue := fun _ => "", Body := "" }

/-- A request whose body is not JSON. -/
def garbledRequest : Request :=
  { PathValue := fun _ => "", Body := "garbled" }

end Validator

namespace Tracing

/-- A panic value `p interface{}`: `nil`; a value `v` that implements `runtime.Error`,
by what the call `v.Error()` does (`some text`: it returns `text`; `none`: the call
itself panics, as on `(*runtime.TypeAssertionError)(nil)`, whose method dereferences
the nil receiver); or any other value, by its `%v` formatting. -/
inductive PanicValue
  | nil
  | runtimeError (error : Option String)
  | other (formatted : String)
  deriving DecidableEq, Repr

/-- The verb `%v` of `fmt` on a panic value; an error is printed by its `Error()`,
and `fmt` prints `<nil>` when that call panics on a nil receiver. -/
def sprintfV : PanicValue → String
  | PanicValue.nil => "<nil>"
  | PanicValue.runtimeError (some text) => text
  | PanicValue.runtimeError none => "<nil>"
  | PanicValue.other formatted => formatted

/-- A Go `error` value that is not nil, by its message. -/
structure GoError where
  message : String
  deriving DecidableEq, Repr

/-- A context, by the span that `trace.FromContext` finds in it (`none`: a nil span). -/
structure Context where
  span : Option Nat
  deriving DecidableEq, Repr

/-- What the recovery handler does to the outside. -/
inductive Effect
  | setAttributes (span : Nat) (key value : String)
  | logError (err : Option GoError) (stack : String) (message : String)
  deriving DecidableEq, Repr

/-- A run-time fault of the handler itself: a method call on a nil span, or a panic
inside the call `v.Error()`. -/
inductive Fault
  | nilDereference
  | errorMethodPanic
  deriving DecidableEq, Repr

/-- The function `trace.FromContext`. -/
def FromContext (ctx : Context) : Option Nat := ctx.span

/-- The method call `span.SetAttributes(trace.StringAttribute(key, value))`; a call on
a nil span faults. -/
def SetAttributes (span : Option Nat) (key value : String) : Except Fault (List Effect) :=
  match span with
  | none => Except.error Fault.nilDereference
  | some sp => Except.ok [Effect.setAttributes sp key value]

/-- The dynamic call `v.Error()` on a `runtime.Error`: its text, or a fault when the
method panics. -/
def callError (error : Option String) : Except Fault String :=
  match error with
  | none => Except.error Fault.errorMethodPanic
  | some text => Except.ok text

/-- The library function `errors.New`. -/
def errorsNew (text : String) : Option GoError := some ⟨text⟩

/-- The call `fmt.Errorf("%v", p)`. -/
def fmtErrorf (p : PanicValue) : Option GoError := some ⟨sprintfV p⟩

/-- The function `RecoveryHandlerFunc`; `stack` is what `debug.Stack()` returns.  The
call `v.Error()` of the `runtime.Error` case is made without a guard. -/
def RecoveryHandlerFunc (stack : String) (ctx : Context) (p : PanicValue) :
    Except Fault (Option GoError × List Effect) :=
  let span := FromContext ctx
  (if span ≠ none then SetAttributes span "stack" stack else Except.ok []).bind fun e1 =>
    (match p with
      | PanicValue.runtimeError error => (callError error).map errorsNew
      | _ => Except.ok (fmtErrorf p)).bind fun err =>
    Except.ok (err, e1 ++ [Effect.logError err stack "gRPC panicked!"])

/-- The call `v.Error()` of a panic value returns: the value is not a `runtime.Error`
whose `Error` method panics. -/
def ErrorReturns (p : PanicValue) : Prop :=
  p ≠ PanicValue.runtimeError none

end Tracing

/-! ## The state accessors: basic facts about the store -/

namespace StateNative

variable {α : Type}

@[simp] theorem emit_arrays (e : Event) (w : World α) : (emit e w).arrays = w.arrays := rfl
@[simp] theorem emit_objs (e : Event) (w : World α) : (emit e w).objs = w.objs := rfl
@[simp] theorem emit_readers (e : Event) (w : World α) : (emit e w).readers = w.readers := rfl
@[simp] theorem emit_log (e : Event) (w : World α) : (emit e w).log = w.log ++ [e] := rfl
@[simp] theorem arr_emit (e : Event) (w : World α) (id : Nat) : arr (emit e w) id = arr w id := rfl
@[simp] theorem deref_emit (e : Event) (w : World α) (p : Ptr) :
    deref (emit e w) p = deref w p := rfl

@[simp] theorem RLock_arrays (w : World α) : (RLock w).arrays = w.arrays := rfl
@[simp] theorem RLock_objs (w : World α) : (RLock w).objs = w.objs := rfl
@[simp] theorem RLock_readers (w : World α) : (RLock w).readers = w.readers + 1 := rfl
@[simp] theorem RLock_log (w : World α) : (RLock w).log = w.log ++ [Event.rlock] := rfl
@[simp] theorem RUnlock_arrays (w : World α) : (RUnlock w).arrays = w.arrays := rfl
@[simp] theorem RUnlock_objs (w : World α) : (RUnlock w).objs = w.objs := rfl
@[simp] theorem RUnlock_readers (w : World α) : (RUnlock w).readers = w.readers - 1 := rfl
@[simp] theorem RUnlock_log (w : World α) : (RUnlock w).log = w.log ++ [Event.runlock] := rfl

/-- Two worlds with the same arrays have the same backing arrays. -/
theorem arr_congr {w w' : World α} (h : w'.arrays = w.arrays) (id : Nat) :
    arr w' id = arr w id := by
  simp [arr, h]

/-- Two worlds with the same objects dereference alike. -/
theorem deref_congr {w w' : World α} (h : w'.objs = w.objs) (p : Ptr) :
    deref w' p = deref w p := by
  simp [deref, h]

@[simp] theorem deref_none (w : World α) : deref w none = none := rfl

/-- Objects are only ever appended: what a pointer denotes is kept. -/
theorem deref_append {w w' : World α} {ext : List α} (h : w'.objs = w.objs ++ ext)
    {p : Ptr} {v : α} (hv : deref w p = some v) : deref w' p = some v := by
  cases p with
  | none => simp at hv
  | some a =>
    simp only [deref, Option.bind] at hv ⊢
    rw [h]
    have hlt : a < w.objs.length := by
      rcases List.getElem?_eq_some.1 hv with ⟨h1, _⟩
      exact h1
    rw [List.getElem?_append_left hlt]
    exact hv

/-- Appending objects keeps what every valid pointer denotes. -/
theorem deref_append_valid {w w' : World α} {ext : List α} (h : w'.objs = w.objs ++ ext)
    {p : Ptr} (hp : ValidPtr w p) : deref w' p = deref w p := by
  cases p with
  | none => rfl
  | some a =>
    have hlt : a < w.objs.length := hp a rfl
    simp only [deref, Option.bind]
    rw [h, List.getElem?_append_left hlt]

/-! ### make, setElem, Copy -/

@[simp] theorem make_objs (w : World α) (n : Nat) : (make w n).1.objs = w.objs := rfl
@[simp] theorem make_readers (w : World α) (n : Nat) : (make w n).1.readers = w.readers := rfl
@[simp] theorem make_log (w : World α) (n : Nat) : (make w n).1.log = w.log := rfl
@[simp] theorem make_snd (w : World α) (n : Nat) : (make w n).2 = w.arrays.length := rfl
@[simp] theorem make_arrays (w : World α) (n : Nat) :
    (make w n).1.arrays = w.arrays ++ [List.replicate n none] := rfl

theorem arr_make_new (w : World α) (n : Nat) :
    arr (make w n).1 w.arrays.length = List.replicate n none := by
  simp [arr]

theorem arr_make_old (w : World α) (n : Nat) {id : Nat} (h : id < w.arrays.length) :
    arr (make w n).1 id = arr w id := by
  simp [arr, List.getElem?_append_left h]

@[simp] theorem setElem_objs (w : World α) (res i : Nat) (p : Ptr) :
    (setElem w res i p).objs = w.objs := rfl
@[simp] theorem setElem_readers (w : World α) (res i : Nat) (p : Ptr) :
    (setElem w res i p).readers = w.readers := rfl
@[simp] theorem setElem_log (w : World α) (res i : Nat) (p : Ptr) :
    (setElem w res i p).log = w.log := rfl
@[simp] theorem setElem_arrays_length (w : World α) (res i : Nat) (p : Ptr) :
    (setElem w res i p).arrays.length = w.arrays.length := by
  simp [setElem]

theorem arr_setElem_ne (w : World α) (res i : Nat) (p : Ptr) {id : Nat} (h : id ≠ res) :
    arr (setElem w res i p) id = arr w id := by
  simp [arr, setElem, List.getElem?_set, Ne.symm h]

theorem arr_setElem_self (w : World α) (res i : Nat) (p : Ptr) :
    arr (setElem w res i p) res = (arr w res).set i p := by
  by_cases h : res < w.arrays.length
  · simp [arr, setElem, List.getElem?_set, h]
  · have h1 : w.arrays.length ≤ res := Nat.le_of_not_lt h
    have h2 : w.arrays[res]? = none := List.getElem?_eq_none h1
    simp [arr, setElem, List.getElem?_set, h, h2]

@[simp] theorem Copy_arrays (w : World α) (p : Ptr) : (Copy w p).1.arrays = w.arrays := by
  unfold Copy; cases deref w p <;> rfl
@[simp] theorem Copy_readers (w : World α) (p : Ptr) : (Copy w p).1.readers = w.readers := by
  unfold Copy; cases deref w p <;> rfl
@[simp] theorem Copy_log (w : World α) (p : Ptr) : (Copy w p).1.log = w.log := by
  unfold Copy; cases deref w p <;> rfl

theorem Copy_objs (w : World α) (p : Ptr) :
    (Copy w p).1.objs = w.objs ++ (deref w p).toList := by
  unfold Copy; cases deref w p <;> simp

theorem Copy_snd (w : World α) (p : Ptr) :
    (Copy w p).2 = (deref w p).map fun _ => w.objs.length := by
  unfold Copy; cases deref w p <;> rfl

/-- The copy denotes what the original denotes. -/
theorem deref_Copy (w : World α) (p : Ptr) :
    deref (Copy w p).1 (Copy w p).2 = deref w p := by
  unfold Copy
  cases h : deref w p with
  | none => simp
  | some v => simp [deref]

/-- The copy is `nil` or a new address. -/
theorem Copy_fresh (w : World α) (p : Ptr) (a : Nat) (h : (Copy w p).2 = some a) :
    w.objs.length ≤ a ∧ a < (Copy w p).1.objs.length := by
  rw [Copy_snd] at h
  rw [Copy_objs]
  cases hd : deref w p with
  | none => simp [hd] at h
  | some v =>
    simp [hd] at h ⊢
    omega

end StateNative

/-! ## The copy loop -/

namespace StateNative

variable {α : Type}

theorem copyStep_log (f : Field) (src res i : Nat) (w : World α) :
    (copyStep f src res i w).log = w.log ++ [Event.readField f] := by
  simp [copyStep]

theorem copyStep_readers (f : Field) (src res i : Nat) (w : World α) :
    (copyStep f src res i w).readers = w.readers := by
  simp [copyStep]

theorem copyStep_arrays_length (f : Field) (src res i : Nat) (w : World α) :
    (copyStep f src res i w).arrays.length = w.arrays.length := by
  simp [copyStep]

theorem copyStep_objs (f : Field) (src res i : Nat) (w : World α) :
    (copyStep f src res i w).objs = w.objs ++ (deref w ((arr w src).getD i none)).toList := by
  simp [copyStep, Copy_objs]

theorem arr_copyStep_ne (f : Field) (src res i : Nat) (w : World α) {id : Nat}
    (h : id ≠ res) : arr (copyStep f src res i w) id = arr w id := by
  simp only [copyStep]
  rw [arr_setElem_ne _ _ _ _ h]
  exact arr_congr (by simp) id

theorem arr_copyStep_self (f : Field) (src res i : Nat) (w : World α) :
    arr (copyStep f src res i w) res = (arr w res).set i (stepPtr f src i w) := by
  simp only [copyStep, stepPtr]
  rw [arr_setElem_self]
  congr 1
  exact arr_congr (by simp) res

theorem copyLoop_log (f : Field) (src res : Nat) (k i : Nat) (w : World α) :
    (copyLoop f src res k i w).log = w.log ++ List.replicate k (Event.readField f) := by
  induction k generalizing i w with
  | zero => simp [copyLoop]
  | succ k ih =>
    simp only [copyLoop]
    rw [ih, copyStep_log, List.replicate_succ, List.append_assoc]
    rfl

theorem copyLoop_readers (f : Field) (src res : Nat) (k i : Nat) (w : World α) :
    (copyLoop f src res k i w).readers = w.readers := by
  induction k generalizing i w with
  | zero => rfl
  | succ k ih => simp only [copyLoop]; rw [ih, copyStep_readers]

theorem copyLoop_arrays_length (f : Field) (src res : Nat) (k i : Nat) (w : World α) :
    (copyLoop f src res k i w).arrays.length = w.arrays.length := by
  induction k generalizing i w with
  | zero => rfl
  | succ k ih => simp only [copyLoop]; rw [ih, copyStep_arrays_length]

theorem copyLoop_objs (f : Field) (src res : Nat) (k i : Nat) (w : World α) :
    ∃ ext, (copyLoop f src res k i w).objs = w.objs ++ ext := by
  induction k generalizing i w with
  | zero => exact ⟨[], by simp [copyLoop]⟩
  | succ k ih =>
    simp only [copyLoop]
    rcases ih (i + 1) (copyStep f src res i w) with ⟨ext, h⟩
    refine ⟨(deref w ((arr w src).getD i none)).toList ++ ext, ?_⟩
    rw [h, copyStep_objs, List.append_assoc]

theorem arr_copyLoop_ne (f : Field) (src res : Nat) (k i : Nat) (w : World α) {id : Nat}
    (h : id ≠ res) : arr (copyLoop f src res k i w) id = arr w id := by
  induction k generalizing i w with
  | zero => rfl
  | succ k ih => simp only [copyLoop]; rw [ih, arr_copyStep_ne _ _ _ _ _ h]

theorem arr_copyLoop_length (f : Field) (src res : Nat) (k i : Nat) (w : World α) :
    (arr (copyLoop f src res k i w) res).length = (arr w res).length := by
  induction k generalizing i w with
  | zero => rfl
  | succ k ih => simp only [copyLoop]; rw [ih, arr_copyStep_self, List.length_set]

/-- The loop entered at index `i` leaves the positions below `i` alone. -/
theorem arr_copyLoop_below (f : Field) (src res : Nat) (k i : Nat) (w : World α) {j : Nat}
    (h : j < i) : (arr (copyLoop f src res k i w) res)[j]? = (arr w res)[j]? := by
  induction k generalizing i w with
  | zero => rfl
  | succ k ih =>
    simp only [copyLoop]
    rw [ih (i + 1) _ (by omega), arr_copyStep_self, List.getElem?_set_ne (by omega)]

/-- Running `a + c` iterations is running `a` and then `c`. -/
theorem copyLoop_add (f : Field) (src res : Nat) (a c i : Nat) (w : World α) :
    copyLoop f src res (a + c) i w = copyLoop f src res c (i + a) (copyLoop f src res a i w) := by
  induction a generalizing i w with
  | zero => simp [copyLoop]
  | succ a ih =>
    have h1 : a + 1 + c = (a + c) + 1 := by omega
    rw [h1]
    simp only [copyLoop]
    rw [ih]
    congr 1
    omega

/-- Position `j` of the result array after the loop holds the pointer stored by
iteration `j`. -/
theorem arr_copyLoop_at (f : Field) (src res : Nat) (k : Nat) (w : World α) {j : Nat}
    (hj : j < k) (hlen : k ≤ (arr w res).length) :
    (arr (copyLoop f src res k 0 w) res)[j]?
      = some (stepPtr f src j (copyLoop f src res j 0 w)) := by
  have hk : k = j + (1 + (k - j - 1)) := by omega
  rw [hk, copyLoop_add, copyLoop_add]
  simp only [Nat.zero_add]
  rw [arr_copyLoop_below _ _ _ _ _ _ (by omega)]
  simp only [copyLoop]
  rw [arr_copyStep_self, List.getElem?_set_self]
  rw [arr_copyLoop_length]
  omega

end StateNative

namespace StateNative

variable {α : Type}

/-- What iteration `j` stores denotes, after the loop, what element `j` of the source
denoted before the loop. -/
theorem deref_stepPtr (f : Field) (src res : Nat) (k : Nat) (w : World α) {j : Nat}
    (hne : src ≠ res) (hj : j < k) (hv : ValidPtr w ((arr w src).getD j none)) :
    deref (copyLoop f src res k 0 w) (stepPtr f src j (copyLoop f src res j 0 w))
      = deref w ((arr w src).getD j none) := by
  have hk : k = j + (1 + (k - j - 1)) := by omega
  rw [hk, copyLoop_add, copyLoop_add]
  simp only [Nat.zero_add, copyLoop]
  generalize hwj : copyLoop f src res j 0 w = wj
  have hsrc : arr wj src = arr w src := by rw [← hwj]; exact arr_copyLoop_ne _ _ _ _ _ _ hne
  rcases copyLoop_objs f src res j 0 w with ⟨e1, he1⟩
  rw [hwj] at he1
  rcases copyLoop_objs f src res (k - j - 1) (j + 1) (copyStep f src res j wj) with ⟨e2, he2⟩
  have hstep : (copyStep f src res j wj).objs
      = (Copy (emit (Event.readField f) wj) ((arr wj src).getD j none)).1.objs := by
    simp [copyStep]
  have hvalid : ValidPtr (copyStep f src res j wj) (stepPtr f src j wj) := by
    intro a ha
    rw [hstep]
    exact (Copy_fresh _ _ a ha).2
  rw [deref_append_valid he2 hvalid, deref_congr hstep]
  simp only [stepPtr]
  rw [deref_Copy, deref_emit, hsrc]
  exact deref_append_valid he1 hv

/-- What iteration `j` stores is `nil` or an address allocated by the loop. -/
theorem stepPtr_fresh (f : Field) (src res : Nat) (j : Nat) (w : World α) (a : Nat)
    (h : stepPtr f src j (copyLoop f src res j 0 w) = some a) : w.objs.length ≤ a := by
  rcases copyLoop_objs f src res j 0 w with ⟨e1, he1⟩
  have h1 := (Copy_fresh _ _ a h).1
  simp only [emit_objs, he1, List.length_append] at h1
  omega

/-- The stored pointer is `nil` exactly when the source element denotes nothing. -/
theorem stepPtr_eq_none_iff (f : Field) (src i : Nat) (w : World α) :
    stepPtr f src i w = none ↔ deref w ((arr w src).getD i none) = none := by
  simp only [stepPtr, Copy_snd, deref_emit]
  cases deref w ((arr w src).getD i none) <;> simp

end StateNative

/-! ## The accessors -/

namespace StateNative

variable {α : Type}

theorem attestationsVal_nil (f : Field) (b : BeaconState) (w : World α)
    (hf : b.field f = none) :
    attestationsVal f b w = (emit (Event.readField f) (emit (Event.enterVal f) w), none) := by
  cases f <;>
    simp only [BeaconState.field] at hf <;>
    simp [attestationsVal, previousEpochAttestationsVal, currentEpochAttestationsVal, hf]

theorem attestationsVal_some (f : Field) (b : BeaconState) (w : World α) (src : Nat)
    (hf : b.field f = some src) :
    attestationsVal f b w =
      (copyLoop f src w.arrays.length (arr w src).length 0
        (make (emit (Event.readField f) (emit (Event.readField f) (emit (Event.enterVal f) w)))
          (arr w src).length).1, some w.arrays.length) := by
  have hm : ∀ (w1 : World α) (n : Nat), (arr (make w1 n).1 (make w1 n).2).length = n := by
    intro w1 n
    rw [make_snd, arr_make_new, List.length_replicate]
  cases f <;>
    simp only [BeaconState.field] at hf <;>
    simp only [attestationsVal, previousEpochAttestationsVal, currentEpochAttestationsVal, hf,
      hm] <;>
    simp

theorem attestations_unsupported (f : Field) (b : BeaconState) (w : World α)
    (hv : b.version ≠ Phase0) :
    attestations f b w = (w, none, some (errNotSupported (accessorName f) b.version)) := by
  cases f <;>
    simp [attestations, PreviousEpochAttestations, CurrentEpochAttestations, hv, accessorName]

theorem attestations_nil (f : Field) (b : BeaconState) (w : World α)
    (hv : b.version = Phase0) (hf : b.field f = none) :
    attestations f b w = (emit (Event.readField f) w, none, none) := by
  cases f <;>
    simp only [BeaconState.field] at hf <;>
    simp [attestations, PreviousEpochAttestations, CurrentEpochAttestations, hv, hf]

theorem attestations_some (f : Field) (b : BeaconState) (w : World α) (src : Nat)
    (hv : b.version = Phase0) (hf : b.field f = some src) :
    attestations f b w =
      (RUnlock (copyLoop f src w.arrays.length (arr w src).length 0 (loopStart f src w)),
        some w.arrays.length, none) := by
  have h := attestationsVal_some f b (RLock (emit (Event.readField f) w)) src hf
  cases f <;>
    simp only [BeaconState.field] at hf <;>
    simp only [attestationsVal] at h <;>
    simp [attestations, PreviousEpochAttestations, CurrentEpochAttestations, hv, hf, h,
      loopStart] <;> rfl

end StateNative

namespace StateNative

variable {α : Type}

@[simp] theorem loopStart_arrays (f : Field) (src : Nat) (w : World α) :
    (loopStart f src w).arrays = w.arrays ++ [List.replicate (arr w src).length none] := rfl
@[simp] theorem loopStart_objs (f : Field) (src : Nat) (w : World α) :
    (loopStart f src w).objs = w.objs := rfl
@[simp] theorem loopStart_readers (f : Field) (src : Nat) (w : World α) :
    (loopStart f src w).readers = w.readers + 1 := rfl
theorem loopStart_log (f : Field) (src : Nat) (w : World α) :
    (loopStart f src w).log = w.log ++ [Event.readField f, Event.rlock, Event.enterVal f,
      Event.readField f, Event.readField f] := by
  simp [loopStart]

theorem arr_loopStart_new (f : Field) (src : Nat) (w : World α) :
    arr (loopStart f src w) w.arrays.length = List.replicate (arr w src).length none := by
  simp [arr]

theorem arr_loopStart_old (f : Field) (src : Nat) (w : World α) {id : Nat}
    (h : id < w.arrays.length) : arr (loopStart f src w) id = arr w id := by
  simp [arr, List.getElem?_append_left h]

theorem finalWorld_arrays_length (f : Field) (src : Nat) (w : World α) :
    (finalWorld f src w).arrays.length = w.arrays.length + 1 := by
  simp [finalWorld, copyLoop_arrays_length]

theorem finalWorld_readers (f : Field) (src : Nat) (w : World α) :
    (finalWorld f src w).readers = w.readers := by
  simp [finalWorld, copyLoop_readers]

theorem finalWorld_log (f : Field) (src : Nat) (w : World α) :
    (finalWorld f src w).log = w.log ++ (Event.readField f :: (Event.rlock ::
      Event.enterVal f :: Event.readField f :: Event.readField f ::
      (List.replicate (arr w src).length (Event.readField f) ++ [Event.runlock]))) := by
  simp [finalWorld, copyLoop_log, loopStart_log]

theorem finalWorld_objs (f : Field) (src : Nat) (w : World α) :
    ∃ ext, (finalWorld f src w).objs = w.objs ++ ext := by
  rcases copyLoop_objs f src w.arrays.length (arr w src).length 0 (loopStart f src w)
    with ⟨ext, h⟩
  exact ⟨ext, by simp [finalWorld, h]⟩

theorem arr_finalWorld_old (f : Field) (src : Nat) (w : World α) {id : Nat}
    (h : id < w.arrays.length) : arr (finalWorld f src w) id = arr w id := by
  have h1 : arr (finalWorld f src w) id
      = arr (copyLoop f src w.arrays.length (arr w src).length 0 (loopStart f src w)) id :=
    arr_congr (by simp [finalWorld]) id
  rw [h1, arr_copyLoop_ne _ _ _ _ _ _ (by omega), arr_loopStart_old _ _ _ h]

theorem arr_finalWorld_new_length (f : Field) (src : Nat) (w : World α) :
    (arr (finalWorld f src w) w.arrays.length).length = (arr w src).length := by
  have h1 : arr (finalWorld f src w) w.arrays.length
      = arr (copyLoop f src w.arrays.length (arr w src).length 0 (loopStart f src w))
          w.arrays.length :=
    arr_congr (by simp [finalWorld]) _
  rw [h1, arr_copyLoop_length, arr_loopStart_new, List.length_replicate]

theorem arr_finalWorld_new_at (f : Field) (src : Nat) (w : World α) {j : Nat}
    (hj : j < (arr w src).length) :
    (arr (finalWorld f src w) w.arrays.length)[j]?
      = some (stepPtr f src j (copyLoop f src w.arrays.length j 0 (loopStart f src w))) := by
  have h1 : arr (finalWorld f src w) w.arrays.length
      = arr (copyLoop f src w.arrays.length (arr w src).length 0 (loopStart f src w))
          w.arrays.length :=
    arr_congr (by simp [finalWorld]) _
  rw [h1]
  apply arr_copyLoop_at _ _ _ _ _ hj
  rw [arr_loopStart_new, List.length_replicate]

theorem deref_finalWorld_new_at (f : Field) (src : Nat) (w : World α) {j : Nat}
    (hsrc : src < w.arrays.length) (hj : j < (arr w src).length)
    (hv : ValidPtr w ((arr w src).getD j none)) :
    deref (finalWorld f src w)
        (stepPtr f src j (copyLoop f src w.arrays.length j 0 (loopStart f src w)))
      = deref w ((arr w src).getD j none) := by
  have h1 : ∀ p, deref (finalWorld f src w) p
      = deref (copyLoop f src w.arrays.length (arr w src).length 0 (loopStart f src w)) p :=
    fun p => deref_congr (by simp [finalWorld]) p
  have hs : arr (loopStart f src w) src = arr w src := arr_loopStart_old _ _ _ hsrc
  have hv1 : ValidPtr (loopStart f src w) ((arr (loopStart f src w) src).getD j none) := by
    rw [hs]; exact hv
  have h2 := deref_stepPtr f src w.arrays.length (arr w src).length (loopStart f src w)
    (by omega) hj hv1
  rw [h1, h2, hs]
  exact deref_congr (by simp) _

theorem stepPtr_finalWorld_fresh (f : Field) (src : Nat) (w : World α) (j a : Nat)
    (h : stepPtr f src j (copyLoop f src w.arrays.length j 0 (loopStart f src w)) = some a) :
    w.objs.length ≤ a := by
  have := stepPtr_fresh f src w.arrays.length j (loopStart f src w) a h
  simpa using this

end StateNative

/-! ## Claims on the accessors -/

namespace StateNative

variable {α : Type}

theorem wellFormed_sample : WellFormed sampleState sampleWorld := by
  intro f src hf
  cases f with
  | previous =>
    have hs : src = 0 := by
      simp [BeaconState.field, sampleState] at hf
      exact hf.symm
    subst hs
    refine ⟨by decide, ?_⟩
    intro p hp a ha
    subst ha
    have hp1 : some a ∈ [some 0, none, some 1] := hp
    simp at hp1
    rcases hp1 with h | h <;> subst h <;> decide
  | current => simp [BeaconState.field, sampleState] at hf

theorem wellFormed_elem {b : BeaconState} {w : World α} (hwf : WellFormed b w) {f : Field}
    {src : Nat} (hf : b.field f = some src) (j : Nat) :
    ValidPtr w ((arr w src).getD j none) := by
  rw [List.getD_eq_getElem?_getD]
  cases h : (arr w src)[j]? with
  | none => intro a ha; simp at ha
  | some p =>
    have hmem : p ∈ arr w src := List.getElem?_mem h
    exact (hwf f src hf).2 p hmem

/-- C1: each accessor returns an error exactly when the state's version is not
Phase0; on any other version the result is nil and the error is `errNotSupported`
of the accessor's own name and the version, whatever the attestation fields hold. -/
theorem accessors_error_iff_not_phase0 (b : BeaconState) (w : World α) :
    (((PreviousEpochAttestations b w).2.2 ≠ none ↔ b.version ≠ Phase0) ∧
      ((CurrentEpochAttestations b w).2.2 ≠ none ↔ b.version ≠ Phase0)) ∧
    (b.version ≠ Phase0 →
      (PreviousEpochAttestations b w).2
          = (none, some (errNotSupported "PreviousEpochAttestations" b.version)) ∧
      (CurrentEpochAttestations b w).2
          = (none, some (errNotSupported "CurrentEpochAttestations" b.version))) := by
  refine ⟨⟨?_, ?_⟩, ?_⟩
  · by_cases hv : b.version = Phase0
    · by_cases hf : b.previousEpochAttestations = none <;>
        simp [PreviousEpochAttestations, hv, hf]
    · simp [PreviousEpochAttestations, hv]
  · by_cases hv : b.version = Phase0
    · by_cases hf : b.currentEpochAttestations = none <;>
        simp [CurrentEpochAttestations, hv, hf]
    · simp [CurrentEpochAttestations, hv]
  · intro hv
    simp [PreviousEpochAttestations, CurrentEpochAttestations, hv]

/-- Witness of C1 on a later-fork state with a populated field. -/
theorem accessors_error_iff_not_phase0_witness :
    laterForkState.version ≠ Phase0 ∧
      (PreviousEpochAttestations laterForkState sampleWorld).2
          = (none, some (errNotSupported "PreviousEpochAttestations" 1)) ∧
      (CurrentEpochAttestations laterForkState sampleWorld).2
          = (none, some (errNotSupported "CurrentEpochAttestations" 1)) :=
  ⟨by decide, (accessors_error_iff_not_phase0 laterForkState sampleWorld).2 (by decide)⟩

/-- C2: on a Phase0 state whose field is non-nil, the accessor returns no error and
a non-nil slice of the same length as the field; its element `i` is the pointer
that `Copy` returns on element `i` of the field (in the world of iteration `i`), and
it denotes what that element denotes.  A non-nil empty field gives a non-nil empty
result. -/
theorem accessors_copy_elementwise (f : Field) (b : BeaconState) (w : World α) (src : Nat)
    (hv : b.version = Phase0) (hf : b.field f = some src) (hwf : WellFormed b w) :
    (attestations f b w).2.2 = none ∧
    ∃ res, (attestations f b w).2.1 = some res ∧
      (arr (attestations f b w).1 res).length = (arr w src).length ∧
      ∀ i, i < (arr w src).length →
        (arr (attestations f b w).1 res)[i]?
          = some (Copy (emit (Event.readField f) (copyLoop f src res i 0 (loopStart f src w)))
              ((arr w src).getD i none)).2 ∧
        deref (attestations f b w).1 ((arr (attestations f b w).1 res).getD i none)
          = deref w ((arr w src).getD i none) := by
  have hsrc : src < w.arrays.length := (hwf f src hf).1
  rw [attestations_some f b w src hv hf]
  refine ⟨rfl, w.arrays.length, rfl, arr_finalWorld_new_length f src w, ?_⟩
  intro i hi
  have hat := arr_finalWorld_new_at f src w hi
  have hs : arr (copyLoop f src w.arrays.length i 0 (loopStart f src w)) src = arr w src := by
    rw [arr_copyLoop_ne _ _ _ _ _ _ (by omega), arr_loopStart_old _ _ _ hsrc]
  constructor
  · show (arr (finalWorld f src w) w.arrays.length)[i]? = _
    rw [hat, stepPtr, hs]
  · show deref (finalWorld f src w) ((arr (finalWorld f src w) w.arrays.length).getD i none) = _
    rw [List.getD_eq_getElem?_getD, hat, Option.getD_some]
    exact deref_finalWorld_new_at f src w hsrc hi (wellFormed_elem hwf hf i)

/-- Witness of C2 on the sample state. -/
theorem accessors_copy_elementwise_witness :
    (attestations Field.previous sampleState sampleWorld).2.2 = none ∧
    ∃ res, (attestations Field.previous sampleState sampleWorld).2.1 = some res ∧
      (arr (attestations Field.previous sampleState sampleWorld).1 res).length
        = (arr sampleWorld 0).length ∧
      ∀ i, i < (arr sampleWorld 0).length →
        (arr (attestations Field.previous sampleState sampleWorld).1 res)[i]?
          = some (Copy (emit (Event.readField Field.previous)
              (copyLoop Field.previous 0 res i 0 (loopStart Field.previous 0 sampleWorld)))
              ((arr sampleWorld 0).getD i none)).2 ∧
        deref (attestations Field.previous sampleState sampleWorld).1
            ((arr (attestations Field.previous sampleState sampleWorld).1 res).getD i none)
          = deref sampleWorld ((arr sampleWorld 0).getD i none) :=
  accessors_copy_elementwise Field.previous sampleState sampleWorld 0 rfl rfl wellFormed_sample

/-- C3: on a Phase0 state whose field is unset the accessor returns `(nil, nil)`;
and an accessor returns a nil result without an error only on Phase0 (with the
field unset), never on a version mismatch. -/
theorem accessors_unset_field (f : Field) (b : BeaconState) (w : World α) :
    (b.version = Phase0 → b.field f = none → (attestations f b w).2 = (none, none)) ∧
    ((attestations f b w).2 = (none, none) → b.version = Phase0 ∧ b.field f = none) := by
  constructor
  · intro hv hf
    rw [attestations_nil f b w hv hf]
  · intro h
    by_cases hv : b.version = Phase0
    · refine ⟨hv, ?_⟩
      cases hf : b.field f with
      | none => rfl
      | some src =>
        rw [attestations_some f b w src hv hf] at h
        simp at h
    · rw [attestations_unsupported f b w hv] at h
      simp at h

/-- Witness of C3 on the unset current-epoch field of the sample state. -/
theorem accessors_unset_field_witness :
    (CurrentEpochAttestations sampleState sampleWorld).2 = (none, none) :=
  (accessors_unset_field Field.current sampleState sampleWorld).1 rfl rfl

end StateNative

/-! ## Deep-copy isolation -/

namespace StateNative

variable {α : Type}

theorem getD_mem {l : List Ptr} {j a : Nat} (h : l.getD j none = some a) : some a ∈ l := by
  rw [List.getD_eq_getElem?_getD] at h
  cases hj : l[j]? with
  | none => simp [hj] at h
  | some p =>
    simp [hj] at h
    subst h
    exact List.getElem?_mem hj

/-- Assigning an isolated pointer to an element keeps the store isolated. -/
theorem Isolated.setElem {w w1 : World α} {r : Nat} (h : Isolated w w1 r)
    (hr : r = w.arrays.length) (i : Nat) (p : Ptr) (hp : ∀ a, p = some a → w.objs.length ≤ a) :
    Isolated w (StateNative.setElem w1 r i p) r where
  arrays_length := by rw [setElem_arrays_length]; exact h.arrays_length
  arrays_old := by
    intro id hid
    rw [arr_setElem_ne _ _ _ _ (by omega)]
    exact h.arrays_old id hid
  objs_length := h.objs_length
  objs_old := h.objs_old
  elems_new := by
    intro a ha
    rw [arr_setElem_self] at ha
    rcases List.mem_or_eq_of_mem_set ha with h1 | h1
    · exact h.elems_new a h1
    · exact hp a h1.symm

theorem Isolated.alloc {w w1 : World α} {r : Nat} (h : Isolated w w1 r) (v : α) :
    Isolated w (StateNative.alloc w1 v).1 r where
  arrays_length := h.arrays_length
  arrays_old := h.arrays_old
  objs_length := by
    have := h.objs_length
    simp only [StateNative.alloc, List.length_append, List.length_singleton]
    omega
  objs_old := by
    intro a ha
    have := h.objs_length
    simp only [StateNative.alloc]
    rw [List.getElem?_append_left (by omega)]
    exact h.objs_old a ha
  elems_new := h.elems_new

/-- A write through an isolated pointer keeps the store isolated. -/
theorem Isolated.storeAt {w w1 : World α} {r : Nat} (h : Isolated w w1 r) (p : Ptr) (v : α)
    (hp : ∀ a, p = some a → w.objs.length ≤ a) :
    Isolated w (StateNative.storeAt w1 p v) r := by
  cases p with
  | none => exact h
  | some a =>
    have ha : w.objs.length ≤ a := hp a rfl
    exact
      { arrays_length := h.arrays_length
        arrays_old := h.arrays_old
        objs_length := by
          simp only [StateNative.storeAt, store, List.length_set]
          exact h.objs_length
        objs_old := by
          intro a1 ha1
          simp only [StateNative.storeAt, store]
          rw [List.getElem?_set_ne (by omega)]
          exact h.objs_old a1 ha1
        elems_new := h.elems_new }

theorem Isolated.applyMutation {w : World α} {st : World α × Vars} {r : Nat}
    (h : Isolated w st.1 r) (hx : VarsNew w st.2) (hr : r = w.arrays.length)
    (m : Mutation α) :
    Isolated w (StateNative.applyMutation r st m).1 r ∧
      VarsNew w (StateNative.applyMutation r st m).2 := by
  cases m with
  | setNil i =>
    exact ⟨h.setElem hr i none (by intro a ha; simp at ha), hx⟩
  | copyElem i j =>
    exact ⟨h.setElem hr i _ (fun a ha => h.elems_new a (getD_mem ha)), hx⟩
  | swap i j =>
    exact ⟨(h.setElem hr i _ (fun a ha => h.elems_new a (getD_mem ha))).setElem hr j _
      (fun a ha => h.elems_new a (getD_mem ha)), hx⟩
  | setNew i v =>
    refine ⟨(h.alloc v).setElem hr i _ ?_, hx⟩
    intro a ha
    simp only [StateNative.alloc, Option.some.injEq] at ha
    subst ha
    exact h.objs_length
  | modify i v =>
    exact ⟨h.storeAt _ v (fun a ha => h.elems_new a (getD_mem ha)), hx⟩
  | load k i =>
    refine ⟨h, ?_⟩
    intro k1 a ha
    simp only [StateNative.applyMutation] at ha
    by_cases hk : k1 = k
    · rw [if_pos hk] at ha
      exact h.elems_new a (getD_mem ha)
    · rw [if_neg hk] at ha
      exact hx k1 a ha
  | storeVar i k =>
    exact ⟨h.setElem hr i _ (fun a ha => hx k a ha), hx⟩
  | modifyVar k v =>
    exact ⟨h.storeAt _ v (fun a ha => hx k a ha), hx⟩

theorem Isolated.foldl {w : World α} {r : Nat} (hr : r = w.arrays.length)
    (ms : List (Mutation α)) (st : World α × Vars) (h : Isolated w st.1 r)
    (hx : VarsNew w st.2) :
    Isolated w (ms.foldl (StateNative.applyMutation r) st).1 r := by
  induction ms generalizing st with
  | nil => exact h
  | cons m ms ih =>
    have hm := h.applyMutation hx hr m
    exact ih _ hm.1 hm.2

theorem Isolated.mutate {w w1 : World α} {r : Nat} (h : Isolated w w1 r)
    (hr : r = w.arrays.length) (ms : List (Mutation α)) :
    Isolated w (StateNative.mutate (some r) w1 ms) r := by
  simp only [StateNative.mutate]
  exact Isolated.foldl hr ms (w1, fun _ => none) h (by intro k a ha; simp at ha)

/-- The world an accessor returns is isolated from the world it was called in. -/
theorem finalWorld_isolated (f : Field) (src : Nat) (w : World α) :
    Isolated w (finalWorld f src w) w.arrays.length where
  arrays_length := finalWorld_arrays_length f src w
  arrays_old := fun id hid => arr_finalWorld_old f src w hid
  objs_length := by
    rcases finalWorld_objs f src w with ⟨ext, h⟩
    rw [h, List.length_append]
    omega
  objs_old := by
    intro a ha
    rcases finalWorld_objs f src w with ⟨ext, h⟩
    rw [h, List.getElem?_append_left ha]
  elems_new := by
    intro a ha
    rcases List.mem_iff_getElem?.1 ha with ⟨j, hj⟩
    have hlt : j < (arr w src).length := by
      rcases List.getElem?_eq_some.1 hj with ⟨h1, _⟩
      rw [arr_finalWorld_new_length] at h1
      exact h1
    rw [arr_finalWorld_new_at f src w hlt] at hj
    exact stepPtr_finalWorld_fresh f src w j a (Option.some.inj hj)

/-- In an isolated store the state's storage is as it was. -/
theorem Isolated.state_unchanged {w w1 : World α} {r : Nat} (h : Isolated w w1 r)
    {b : BeaconState} (hwf : WellFormed b w) {g : Field} {src : Nat}
    (hg : b.field g = some src) :
    arr w1 src = arr w src ∧ ∀ p ∈ arr w src, deref w1 p = deref w p := by
  refine ⟨h.arrays_old src (hwf g src hg).1, ?_⟩
  intro p hp
  cases p with
  | none => rfl
  | some a =>
    have ha : a < w.objs.length := (hwf g src hg).2 (some a) hp a rfl
    simp only [deref, Option.bind]
    exact h.objs_old a ha

theorem Isolated.wellFormed {w w1 : World α} {r : Nat} (h : Isolated w w1 r)
    {b : BeaconState} (hwf : WellFormed b w) : WellFormed b w1 := by
  intro g src hg
  have hs := (hwf g src hg).1
  refine ⟨by rw [h.arrays_length]; omega, ?_⟩
  intro p hp a ha
  rw [h.arrays_old src hs] at hp
  have := (hwf g src hg).2 p hp a ha
  have := h.objs_length
  omega

theorem Isolated.sliceView {w w1 : World α} {r : Nat} (h : Isolated w w1 r)
    {b : BeaconState} (hwf : WellFormed b w) (g : Field) :
    StateNative.sliceView w1 (b.field g) = StateNative.sliceView w (b.field g) := by
  cases hg : b.field g with
  | none => rfl
  | some src =>
    have hu := h.state_unchanged hwf hg
    simp only [StateNative.sliceView, Option.map_some']
    rw [hu.1]
    exact congrArg some (List.map_congr_left hu.2)

/-- On a Phase0 state the accessor returns a slice that denotes what the field
denotes. -/
theorem attestations_sliceView (f : Field) (b : BeaconState) (w : World α)
    (hv : b.version = Phase0) (hwf : WellFormed b w) :
    sliceView (attestations f b w).1 (attestations f b w).2.1 = sliceView w (b.field f) := by
  cases hf : b.field f with
  | none => rw [attestations_nil f b w hv hf]; rfl
  | some src =>
    have hsrc : src < w.arrays.length := (hwf f src hf).1
    rw [attestations_some f b w src hv hf]
    show sliceView (finalWorld f src w) (some w.arrays.length) = _
    simp only [sliceView, Option.map_some']
    apply congrArg some
    apply List.ext_getElem?
    intro i
    rw [List.getElem?_map, List.getElem?_map]
    by_cases hi : i < (arr w src).length
    · rw [arr_finalWorld_new_at f src w hi, List.getElem?_eq_getElem hi]
      simp only [Option.map_some']
      have hd := deref_finalWorld_new_at f src w hsrc hi (wellFormed_elem hwf hf i)
      rw [hd, List.getD_eq_getElem?_getD, List.getElem?_eq_getElem hi, Option.getD_some]
    · have h1 : (arr (finalWorld f src w) w.arrays.length)[i]? = none :=
        List.getElem?_eq_none (by rw [arr_finalWorld_new_length]; omega)
      have h2 : (arr w src)[i]? = none := List.getElem?_eq_none (by omega)
      rw [h1, h2]
      rfl

end StateNative

namespace StateNative

variable {α : Type}

/-- C4: deep-copy isolation.  After a caller has obtained a slice from an accessor on
a Phase0 state and mutated it in any way (replacing, reordering or modifying its
elements), the arrays and objects of the state's fields are as before, a second call
on the state returns (without error) a value equal to what the first call returned,
and neither the result array nor any of its elements belongs to the state's storage. -/
theorem deep_copy_isolation (f : Field) (b : BeaconState) (w : World α)
    (ms : List (Mutation α)) (hv : b.version = Phase0) (hwf : WellFormed b w) :
    (∀ g src, b.field g = some src →
      arr (afterMutation f b w ms) src = arr w src ∧
      ∀ p ∈ arr w src, deref (afterMutation f b w ms) p = deref w p) ∧
    sliceView (attestations f b (afterMutation f b w ms)).1
        (attestations f b (afterMutation f b w ms)).2.1
      = sliceView (attestations f b w).1 (attestations f b w).2.1 ∧
    (attestations f b (afterMutation f b w ms)).2.2 = none ∧
    (∀ res, (attestations f b w).2.1 = some res → ∀ g src, b.field g = some src →
      res ≠ src ∧ ∀ a, some a ∈ arr (attestations f b w).1 res → some a ∉ arr w src) := by
  cases hf : b.field f with
  | none =>
    have h1 : attestations f b w = (emit (Event.readField f) w, none, none) :=
      attestations_nil f b w hv hf
    have h2 : afterMutation f b w ms = emit (Event.readField f) w := by
      simp only [afterMutation, h1, mutate]
    rw [h2, attestations_nil f b _ hv hf, h1]
    refine ⟨?_, rfl, rfl, ?_⟩
    · intro g src _
      exact ⟨rfl, fun p _ => rfl⟩
    · intro res hres
      simp at hres
  | some src0 =>
    have h1 : attestations f b w = (finalWorld f src0 w, some w.arrays.length, none) :=
      attestations_some f b w src0 hv hf
    have h2 : afterMutation f b w ms = mutate (some w.arrays.length) (finalWorld f src0 w) ms := by
      simp only [afterMutation, h1]
    have hiso : Isolated w (afterMutation f b w ms) w.arrays.length := by
      rw [h2]
      exact (finalWorld_isolated f src0 w).mutate rfl ms
    have hwf2 : WellFormed b (afterMutation f b w ms) := hiso.wellFormed hwf
    refine ⟨?_, ?_, ?_, ?_⟩
    · intro g src hg
      exact hiso.state_unchanged hwf hg
    · rw [attestations_sliceView f b _ hv hwf2, attestations_sliceView f b w hv hwf]
      exact hiso.sliceView hwf f
    · have hs : (afterMutation f b w ms).arrays.length = w.arrays.length + 1 :=
        hiso.arrays_length
      rw [attestations_some f b _ src0 hv hf]
    · intro res hres g src hg
      rw [h1] at hres ⊢
      simp only [Option.some.injEq] at hres
      subst hres
      have hs := (hwf g src hg).1
      refine ⟨by omega, ?_⟩
      intro a ha hmem
      have hnew := (finalWorld_isolated f src0 w).elems_new a ha
      have hold := (hwf g src hg).2 (some a) hmem a rfl
      omega

/-- Witness of C4: the sample state, with the sample mutations applied to the result of
the first call. -/
theorem deep_copy_isolation_witness :
    sliceView (attestations Field.previous sampleState
          (afterMutation Field.previous sampleState sampleWorld sampleMutations)).1
        (attestations Field.previous sampleState
          (afterMutation Field.previous sampleState sampleWorld sampleMutations)).2.1
      = sliceView (attestations Field.previous sampleState sampleWorld).1
          (attestations Field.previous sampleState sampleWorld).2.1 :=
  (deep_copy_isolation Field.previous sampleState sampleWorld sampleMutations rfl
    wellFormed_sample).2.1

/-- The sample mutations do change what the received slice denotes: the first call
returns `[7, nil, 9]`, after the mutations the caller's slice denotes `[nil, 8, 6]`,
and the second call returns `[7, nil, 9]` again. -/
theorem sample_mutations_effect :
    sliceView (attestations Field.previous sampleState sampleWorld).1
        (attestations Field.previous sampleState sampleWorld).2.1
      = some [some 7, none, some 9] ∧
    sliceView (afterMutation Field.previous sampleState sampleWorld sampleMutations)
        (attestations Field.previous sampleState sampleWorld).2.1
      = some [none, some 8, some 6] ∧
    sliceView (attestations Field.previous sampleState
          (afterMutation Field.previous sampleState sampleWorld sampleMutations)).1
        (attestations Field.previous sampleState
          (afterMutation Field.previous sampleState sampleWorld sampleMutations)).2.1
      = some [some 7, none, some 9] := by
  refine ⟨?_, ?_, ?_⟩ <;> decide

end StateNative

/-! ## Locking discipline -/

namespace StateNative

variable {α : Type}

theorem readsUnderLock_replicate (f : Field) (n k : Nat) (t : List Event) (hn : 0 < n) :
    readsUnderLock n (List.replicate k (Event.readField f) ++ t) = readsUnderLock n t := by
  induction k with
  | zero => rfl
  | succ k ih =>
    rw [List.replicate_succ, List.cons_append, readsUnderLock, ih]
    simp [hn]

theorem trace_nil (f : Field) (b : BeaconState) (w : World α)
    (hv : b.version = Phase0) (hf : b.field f = none) :
    trace f b w = [Event.readField f] := by
  simp [trace, attestations_nil f b w hv hf]

theorem trace_some (f : Field) (b : BeaconState) (w : World α) (src : Nat)
    (hv : b.version = Phase0) (hf : b.field f = some src) :
    trace f b w = Event.readField f :: (Event.rlock :: Event.enterVal f ::
      Event.readField f :: Event.readField f ::
      (List.replicate (arr w src).length (Event.readField f) ++ [Event.runlock])) := by
  simp only [trace, attestations_some f b w src hv hf]
  show List.drop w.log.length (finalWorld f src w).log = _
  rw [finalWorld_log, List.drop_left]

/-- C5 as stated fails: on the sample Phase0 state the accessor reads the field for
its unset check before it takes the read lock, both when the field is populated and
when it is unset (where no lock is taken at all). -/
theorem unset_check_not_under_lock :
    sampleState.version = Phase0 ∧
    trace Field.previous sampleState sampleWorld
      = [Event.readField Field.previous, Event.rlock, Event.enterVal Field.previous,
          Event.readField Field.previous, Event.readField Field.previous,
          Event.readField Field.previous, Event.readField Field.previous,
          Event.readField Field.previous, Event.runlock] ∧
    readsUnderLock 0 (trace Field.previous sampleState sampleWorld) = false ∧
    trace Field.current sampleState sampleWorld = [Event.readField Field.current] ∧
    readsUnderLock 0 (trace Field.current sampleState sampleWorld) = false := by
  refine ⟨?_, ?_, ?_, ?_, ?_⟩ <;> decide

/-- C5, amended: a call on a Phase0 state first reads the field for its unset check,
with no lock taken by the call; when the field is unset the call ends there, without
any lock.  When the field is set, what follows is exactly: the read lock is taken
(once), the helper is entered, the field is read for the helper's own unset check,
for its length and once for each element, and the read lock is released (once); so
the helper is entered and every further read happens with the lock held.  On every
path the acquisitions equal the releases, the count of readers is restored, and the
exclusive lock is never taken. -/
theorem locking_discipline_after_unset_check (f : Field) (b : BeaconState) (w : World α)
    (hv : b.version = Phase0) :
    ∃ rest, trace f b w = Event.readField f :: rest ∧
      (b.field f = none → rest = []) ∧
      (∀ src, b.field f = some src →
        rest = Event.rlock :: Event.enterVal f :: Event.readField f :: Event.readField f ::
          (List.replicate (arr w src).length (Event.readField f) ++ [Event.runlock]) ∧
        rest.count Event.rlock = 1 ∧ rest.count Event.runlock = 1 ∧
        rest.count (Event.enterVal f) = 1) ∧
      readsUnderLock 0 rest = true ∧
      (trace f b w).count Event.rlock = (trace f b w).count Event.runlock ∧
      Event.lock ∉ trace f b w ∧ Event.unlock ∉ trace f b w ∧
      (attestations f b w).1.readers = w.readers ∧
      (attestations f b w).1.log = w.log ++ trace f b w := by
  cases hf : b.field f with
  | none =>
    refine ⟨[], trace_nil f b w hv hf, fun _ => rfl, fun src h => by simp at h, rfl,
      ?_, ?_, ?_, ?_, ?_⟩
    · rw [trace_nil f b w hv hf]; rfl
    · rw [trace_nil f b w hv hf]; simp
    · rw [trace_nil f b w hv hf]; simp
    · rw [attestations_nil f b w hv hf]; rfl
    · rw [trace_nil f b w hv hf, attestations_nil f b w hv hf]; rfl
  | some src =>
    refine ⟨_, trace_some f b w src hv hf, fun h => by simp at h, ?_, ?_, ?_, ?_, ?_, ?_, ?_⟩
    · intro src1 h1
      simp only [Option.some.injEq] at h1
      subst h1
      refine ⟨rfl, ?_, ?_, ?_⟩ <;>
        simp [List.count_cons, List.count_append, List.count_replicate]
    · simp only [readsUnderLock, Nat.zero_add, Nat.lt_one_iff, decide_True, Bool.true_and]
      rw [readsUnderLock_replicate f 1 _ _ (by omega)]
      rfl
    · rw [trace_some f b w src hv hf]
      simp [List.count_cons, List.count_append, List.count_replicate]
    · rw [trace_some f b w src hv hf]
      simp [List.mem_replicate]
    · rw [trace_some f b w src hv hf]
      simp [List.mem_replicate]
    · rw [attestations_some f b w src hv hf]
      exact finalWorld_readers f src w
    · rw [trace_some f b w src hv hf, attestations_some f b w src hv hf]
      exact finalWorld_log f src w

/-- Witness of the amended C5 on the sample state, whose previous-epoch field is set:
the read lock is taken once, the helper entered once, and the lock released once. -/
theorem locking_discipline_after_unset_check_witness :
    ∃ rest, trace Field.previous sampleState sampleWorld
        = Event.readField Field.previous :: rest ∧
      rest = Event.rlock :: Event.enterVal Field.previous ::
          Event.readField Field.previous :: Event.readField Field.previous ::
          (List.replicate (arr sampleWorld 0).length (Event.readField Field.previous)
            ++ [Event.runlock]) ∧
      rest.count Event.rlock = 1 ∧ rest.count Event.runlock = 1 ∧
      rest.count (Event.enterVal Field.previous) = 1 ∧
      readsUnderLock 0 rest = true := by
  rcases locking_discipline_after_unset_check Field.previous sampleState sampleWorld rfl
    with ⟨rest, h1, _, h3, h4, _⟩
  exact ⟨rest, h1, (h3 0 rfl).1, (h3 0 rfl).2.1, (h3 0 rfl).2.2.1, (h3 0 rfl).2.2.2, h4⟩

end StateNative

/-! ## The HTTP handlers -/

namespace Validator

/-- C6: on a request whose `state_id` path value is empty, `GetParticipation` and
`GetActiveSetChanges` each write exactly one error response, with status 400 and the
message "state_id is required in URL params", and return without a call of
`Stater.State`, without a call of the `CoreService` and without a success body. -/
theorem empty_state_id_bad_request (s : Server) (r : Request)
    (h : r.PathValue "state_id" = "") :
    (GetParticipation s r
        = [Effect.startSpan "validator.GetParticipation",
            Effect.handleError "state_id is required in URL params" 400, Effect.spanEnd] ∧
      GetActiveSetChanges s r
        = [Effect.startSpan "validator.GetActiveSetChanges",
            Effect.handleError "state_id is required in URL params" 400, Effect.spanEnd]) ∧
    (∀ es, es = GetParticipation s r ∨ es = GetActiveSetChanges s r →
      es.filter Effect.isErrorResponse
          = [Effect.handleError "state_id is required in URL params" 400] ∧
        es.filter Effect.isStaterCall = [] ∧
        es.filter Effect.isCoreCall = [] ∧
        es.filter Effect.isSuccessBody = []) := by
  have h1 : GetParticipation s r
      = [Effect.startSpan "validator.GetParticipation",
          Effect.handleError "state_id is required in URL params" 400, Effect.spanEnd] := by
    simp [GetParticipation, h, StatusBadRequest]
  have h2 : GetActiveSetChanges s r
      = [Effect.startSpan "validator.GetActiveSetChanges",
          Effect.handleError "state_id is required in URL params" 400, Effect.spanEnd] := by
    simp [GetActiveSetChanges, h, StatusBadRequest]
  refine ⟨⟨h1, h2⟩, ?_⟩
  intro es hes
  rcases hes with hes | hes
  · rw [hes, h1]
    exact ⟨rfl, rfl, rfl, rfl⟩
  · rw [hes, h2]
    exact ⟨rfl, rfl, rfl, rfl⟩

/-- Witness of C6: the request without a state identifier, on the sample server. -/
theorem empty_state_id_bad_request_witness :
    GetParticipation sampleServer emptyRequest
        = [Effect.startSpan "validator.GetParticipation",
            Effect.handleError "state_id is required in URL params" 400, Effect.spanEnd] ∧
      GetActiveSetChanges sampleServer emptyRequest
        = [Effect.startSpan "validator.GetActiveSetChanges",
            Effect.handleError "state_id is required in URL params" 400, Effect.spanEnd] :=
  (empty_state_id_bad_request sampleServer emptyRequest rfl).1

/-- C7 as stated fails: when the core service fails with the internal error
"db closed" (status 500), each handler writes that very text to the caller. -/
theorem internal_error_text_reaches_caller :
    failingServer.ErrorReasonToHTTP 0 = 500 ∧
    writtenErrors (GetParticipation failingServer headRequest) = [("db closed", 500)] ∧
    writtenErrors (GetActiveSetChanges failingServer headRequest) = [("db closed", 500)] ∧
    writtenErrors (GetPerformance failingServer headRequest)
      = [("Could not compute validator performance: db closed", 500)] ∧
    containsText "db closed" "db closed" ∧
    containsText "Could not compute validator performance: db closed" "db closed" := by
  refine ⟨rfl, by decide, by decide, by decide, ⟨"", "", by decide⟩, ?_⟩
  exact ⟨"Could not compute validator performance: ", "", by decide⟩

theorem containsText_self (t : String) : containsText t t :=
  ⟨"", "", by simp⟩

theorem containsText_append (pre t : String) : containsText (pre ++ t) t :=
  ⟨pre, "", by simp⟩

/-- C7, amended: when the call of the core service fails, whatever the status of its
reason, the one error response carries the status `ErrorReasonToHTTP(reason)` and a
message that contains the text of the underlying error: that text itself in
`GetParticipation` and `GetActiveSetChanges`, and the text after
"Could not compute validator performance: " in `GetPerformance`. -/
theorem core_failure_message (s : Server) (r : Request) (rpcError : RpcError) :
    (∀ slot, r.PathValue "state_id" ≠ "" →
      s.Stater.State (r.PathValue "state_id") = Except.ok slot →
      s.CoreService.ValidatorParticipation (s.ToEpoch slot) = Except.error rpcError →
      writtenErrors (GetParticipation s r)
        = [(rpcError.Err, s.ErrorReasonToHTTP rpcError.Reason)]) ∧
    (∀ slot, r.PathValue "state_id" ≠ "" →
      s.Stater.State (r.PathValue "state_id") = Except.ok slot →
      s.CoreService.ValidatorActiveSetChanges (s.ToEpoch slot) = Except.error rpcError →
      writtenErrors (GetActiveSetChanges s r)
        = [(rpcError.Err, s.ErrorReasonToHTTP rpcError.Reason)]) ∧
    (∀ req, s.jsonDecode r.Body = Except.ok req →
      s.CoreService.ComputeValidatorPerformance ⟨req.PublicKeys, req.Indices⟩
        = Except.error rpcError →
      writtenErrors (GetPerformance s r)
        = [("Could not compute validator performance: " ++ rpcError.Err,
            s.ErrorReasonToHTTP rpcError.Reason)]) ∧
    containsText rpcError.Err rpcError.Err ∧
    containsText ("Could not compute validator performance: " ++ rpcError.Err)
      rpcError.Err := by
  refine ⟨?_, ?_, ?_, containsText_self _, containsText_append _ _⟩
  · intro slot h1 h2 h3
    simp [GetParticipation, h1, h2, h3, writtenErrors]
  · intro slot h1 h2 h3
    simp [GetActiveSetChanges, h1, h2, h3, writtenErrors]
  · intro req h1 h2
    simp [GetPerformance, h1, h2, handleHTTPError, writtenErrors]

/-- Witness of the amended C7 on the failing sample server. -/
theorem core_failure_message_witness :
    writtenErrors (GetParticipation failingServer headRequest)
        = [("db closed", failingServer.ErrorReasonToHTTP 0)] ∧
    writtenErrors (GetActiveSetChanges failingServer headRequest)
        = [("db closed", failingServer.ErrorReasonToHTTP 0)] ∧
    writtenErrors (GetPerformance failingServer headRequest)
        = [("Could not compute validator performance: " ++ "db closed",
            failingServer.ErrorReasonToHTTP 0)] :=
  ⟨(core_failure_message failingServer headRequest ⟨"db closed", 0⟩).1 64
      (by decide) rfl rfl,
    (core_failure_message failingServer headRequest ⟨"db closed", 0⟩).2.1 64
      (by decide) rfl rfl,
    (core_failure_message failingServer headRequest ⟨"db closed", 0⟩).2.2.1 ⟨[], []⟩
      rfl rfl⟩

end Validator

namespace Validator

theorem fillLoop_length {β : Type} (g : β → String) (l : List β) (i : Nat) (s : List String) :
    (fillLoop g l i s).length = s.length := by
  induction l generalizing i s with
  | nil => rfl
  | cons b rest ih => simp only [fillLoop]; rw [ih, List.length_set]

/-- The loop entered at index `i` leaves the positions below `i` alone. -/
theorem fillLoop_below {β : Type} (g : β → String) (l : List β) (i : Nat) (s : List String)
    {j : Nat} (h : j < i) : (fillLoop g l i s)[j]? = s[j]? := by
  induction l generalizing i s with
  | nil => rfl
  | cons b rest ih =>
    simp only [fillLoop]
    rw [ih (i + 1) _ (by omega), List.getElem?_set_ne (by omega)]

/-- Position `i + k` of the result holds the conversion of element `k` of the input. -/
theorem fillLoop_at {β : Type} (g : β → String) (l : List β) (i : Nat) (s : List String)
    (k : Nat) (hk : k < l.length) (hs : i + l.length ≤ s.length) :
    (fillLoop g l i s)[i + k]? = (l[k]?).map g := by
  induction l generalizing i s k with
  | nil => simp at hk
  | cons b rest ih =>
    simp only [fillLoop]
    simp only [List.length_cons] at hk hs
    cases k with
    | zero =>
      simp only [Nat.add_zero, List.getElem?_cons_zero, Option.map_some']
      rw [fillLoop_below g rest (i + 1) _ (by omega), List.getElem?_set_self (by omega)]
    | succ k =>
      have h1 : i + (k + 1) = (i + 1) + k := by omega
      rw [h1, ih (i + 1) _ k (by omega) (by rw [List.length_set]; omega)]
      simp

theorem fillLoop_getElem? {β : Type} (g : β → String) (l : List β) (j : Nat) :
    (fillLoop g l 0 (List.replicate l.length ""))[j]? = (l[j]?).map g := by
  by_cases hj : j < l.length
  · have h := fillLoop_at g l 0 (List.replicate l.length "") j hj (by simp)
    rw [Nat.zero_add] at h
    exact h
  · have h1 : (fillLoop g l 0 (List.replicate l.length ""))[j]? = none :=
      List.getElem?_eq_none (by rw [fillLoop_length, List.length_replicate]; omega)
    have h2 : l[j]? = none := List.getElem?_eq_none (by omega)
    rw [h1, h2]
    rfl

/-- The fill loop over a new slice computes the element-wise conversion. -/
theorem fillLoop_eq_map {β : Type} (g : β → String) (l : List β) :
    fillLoop g l 0 (List.replicate l.length "") = l.map g := by
  apply List.ext_getElem?
  intro j
  rw [fillLoop_getElem?, List.getElem?_map]

/-- The encoding of a public key starts with `0x` and goes on with two hexadecimal
digits for every byte. -/
theorem hexutilEncode_data (b : List Nat) :
    (hexutilEncode b).data
      = '0' :: 'x' :: b.flatMap fun x => [hexDigit (x / 16), hexDigit x] := by
  simp [hexutilEncode, String.data_append]

/-- Sample conversions: a public key and a validator index. -/
theorem conversions_sample :
    byteSlice2dToStringSlice [[170, 1], [187, 2]] = ["0xaa01", "0xbb02"] ∧
    uint64SliceToStringSlice [7, 8, 18446744073709551615]
      = ["7", "8", "18446744073709551615"] := by
  constructor <;> decide

theorem GetActiveSetChanges_success (s : Server) (r : Request) (slot : Nat)
    (as : CoreActiveSetChanges) (h1 : r.PathValue "state_id" ≠ "")
    (h2 : s.Stater.State (r.PathValue "state_id") = Except.ok slot)
    (h3 : s.CoreService.ValidatorActiveSetChanges (s.ToEpoch slot) = Except.ok as) :
    GetActiveSetChanges s r
      = [Effect.startSpan "validator.GetActiveSetChanges",
          Effect.staterState (r.PathValue "state_id"),
          Effect.coreValidatorActiveSetChanges (s.ToEpoch slot),
          Effect.writeJsonActiveSetChanges
            { Epoch := sprintfD as.Epoch
              ActivatedPublicKeys := byteSlice2dToStringSlice as.ActivatedPublicKeys
              ActivatedIndices := uint64SliceToStringSlice as.ActivatedIndices
              ExitedPublicKeys := byteSlice2dToStringSlice as.ExitedPublicKeys
              ExitedIndices := uint64SliceToStringSlice as.ExitedIndices
              SlashedPublicKeys := byteSlice2dToStringSlice as.SlashedPublicKeys
              SlashedIndices := uint64SliceToStringSlice as.SlashedIndices
              EjectedPublicKeys := byteSlice2dToStringSlice as.EjectedPublicKeys
              EjectedIndices := uint64SliceToStringSlice as.EjectedIndices },
          Effect.spanEnd] := by
  simp [GetActiveSetChanges, h1, h2, h3]

/-- C8: `byteSlice2dToStringSlice` and `uint64SliceToStringSlice` keep the length of
their input, with element `i` the 0x hex encoding of key `i`, respectively the decimal
string of index `i`; hence every group of the `GetActiveSetChanges` response keeps the
order and the lengths of the core result, and a group whose keys and indices are
index-aligned in the core result is index-aligned in the response. -/
theorem conversions_keep_alignment :
    (∀ ks : List (List Nat), (byteSlice2dToStringSlice ks).length = ks.length ∧
      ∀ i : Nat, (byteSlice2dToStringSlice ks)[i]? = (ks[i]?).map hexutilEncode) ∧
    (∀ ixs : List Nat, (uint64SliceToStringSlice ixs).length = ixs.length ∧
      ∀ i : Nat, (uint64SliceToStringSlice ixs)[i]? = (ixs[i]?).map sprintfD) ∧
    (∀ (s : Server) (r : Request) (slot : Nat) (as : CoreActiveSetChanges),
      r.PathValue "state_id" ≠ "" →
      s.Stater.State (r.PathValue "state_id") = Except.ok slot →
      s.CoreService.ValidatorActiveSetChanges (s.ToEpoch slot) = Except.ok as →
      ∃ resp : ActiveSetChanges, GetActiveSetChanges s r
          = [Effect.startSpan "validator.GetActiveSetChanges",
              Effect.staterState (r.PathValue "state_id"),
              Effect.coreValidatorActiveSetChanges (s.ToEpoch slot),
              Effect.writeJsonActiveSetChanges resp, Effect.spanEnd] ∧
        ∀ g, (resp.keys g).length = (as.keys g).length ∧
          (resp.indices g).length = (as.indices g).length ∧
          (∀ i : Nat, (resp.keys g)[i]? = ((as.keys g)[i]?).map hexutilEncode ∧
            (resp.indices g)[i]? = ((as.indices g)[i]?).map sprintfD) ∧
          ((as.keys g).length = (as.indices g).length →
            (resp.keys g).length = (resp.indices g).length)) := by
  have hk : ∀ ks : List (List Nat), byteSlice2dToStringSlice ks = ks.map hexutilEncode :=
    fun ks => fillLoop_eq_map hexutilEncode ks
  have hi : ∀ ixs : List Nat, uint64SliceToStringSlice ixs = ixs.map sprintfD :=
    fun ixs => fillLoop_eq_map sprintfD ixs
  refine ⟨?_, ?_, ?_⟩
  · intro ks
    exact ⟨by rw [hk, List.length_map], fun i => by rw [hk, List.getElem?_map]⟩
  · intro ixs
    exact ⟨by rw [hi, List.length_map], fun i => by rw [hi, List.getElem?_map]⟩
  · intro s r slot as h1 h2 h3
    refine ⟨_, GetActiveSetChanges_success s r slot as h1 h2 h3, ?_⟩
    intro g
    cases g <;>
      simp only [ActiveSetChanges.keys, ActiveSetChanges.indices, CoreActiveSetChanges.keys,
        CoreActiveSetChanges.indices, hk, hi, List.length_map, List.getElem?_map] <;>
      exact ⟨trivial, trivial, fun _ => ⟨trivial, trivial⟩, fun h => h⟩

/-- Witness of C8: the sample core result on the sample server. -/
theorem conversions_keep_alignment_witness :
    ∃ resp : ActiveSetChanges, GetActiveSetChanges sampleServer headRequest
        = [Effect.startSpan "validator.GetActiveSetChanges",
            Effect.staterState (headRequest.PathValue "state_id"),
            Effect.coreValidatorActiveSetChanges (sampleServer.ToEpoch 64),
            Effect.writeJsonActiveSetChanges resp, Effect.spanEnd] ∧
      ∀ g, (resp.keys g).length = (sampleChanges.keys g).length ∧
        (resp.indices g).length = (sampleChanges.indices g).length ∧
        (∀ i : Nat, (resp.keys g)[i]? = ((sampleChanges.keys g)[i]?).map hexutilEncode ∧
          (resp.indices g)[i]? = ((sampleChanges.indices g)[i]?).map sprintfD) ∧
        ((sampleChanges.keys g).length = (sampleChanges.indices g).length →
          (resp.keys g).length = (resp.indices g).length) :=
  conversions_keep_alignment.2.2 sampleServer headRequest 64 sampleChanges (by decide) rfl rfl

/-- C9: when the request body fails to decode, `GetPerformance` writes an error of
status 400 and does not call the core service: the message is "No data submitted"
when the decode error is `io.EOF`, and "Could not decode request body: " followed by
the text of the error otherwise.  The core service is called exactly when the body
decodes. -/
theorem decode_failure_bad_request (s : Server) (r : Request) :
    (∀ err, s.jsonDecode r.Body = Except.error err → err.isEOF = true →
      GetPerformance s r
        = [Effect.startSpan "validator.GetPerformance",
            Effect.handleError "No data submitted" 400, Effect.spanEnd]) ∧
    (∀ err, s.jsonDecode r.Body = Except.error err → err.isEOF = false →
      GetPerformance s r
        = [Effect.startSpan "validator.GetPerformance",
            Effect.handleError ("Could not decode request body: " ++ err.text) 400,
            Effect.spanEnd]) ∧
    ((∃ e ∈ GetPerformance s r, e.isCoreCall = true) ↔
      ∃ req, s.jsonDecode r.Body = Except.ok req) ∧
    (∀ req, s.jsonDecode r.Body = Except.ok req →
      (GetPerformance s r).filter Effect.isCoreCall
        = [Effect.coreComputeValidatorPerformance ⟨req.PublicKeys, req.Indices⟩]) := by
  refine ⟨?_, ?_, ?_, ?_⟩
  · intro err h1 h2
    simp [GetPerformance, h1, h2, StatusBadRequest]
  · intro err h1 h2
    simp [GetPerformance, h1, h2, StatusBadRequest]
  · cases hd : s.jsonDecode r.Body with
    | error err =>
      cases he : err.isEOF <;>
        simp [GetPerformance, hd, he, Effect.isCoreCall]
    | ok req =>
      cases hc : s.CoreService.ComputeValidatorPerformance ⟨req.PublicKeys, req.Indices⟩ <;>
        simp [GetPerformance, hd, hc, Effect.isCoreCall, handleHTTPError]
  · intro req hd
    cases hc : s.CoreService.ComputeValidatorPerformance ⟨req.PublicKeys, req.Indices⟩ <;>
      simp [GetPerformance, hd, hc, Effect.isCoreCall, handleHTTPError, List.filter]

/-- Witness of C9: an empty body and a garbled body on the sample server. -/
theorem decode_failure_bad_request_witness :
    GetPerformance sampleServer emptyRequest
        = [Effect.startSpan "validator.GetPerformance",
            Effect.handleError "No data submitted" 400, Effect.spanEnd] ∧
    GetPerformance sampleServer garbledRequest
        = [Effect.startSpan "validator.GetPerformance",
            Effect.handleError ("Could not decode request body: " ++ "invalid character") 400,
            Effect.spanEnd] :=
  ⟨(decode_failure_bad_request sampleServer emptyRequest).1 ⟨true, "EOF"⟩ rfl rfl,
    (decode_failure_bad_request sampleServer garbledRequest).2.1 ⟨false, "invalid character"⟩
      rfl rfl⟩

end Validator

/-! ## Panic recovery -/

namespace Tracing

/-- C10: the handler does not return an error for every panic value.  On a
`runtime.Error` whose `Error` method panics (such as a nil `*runtime.TypeAssertionError`)
the unguarded call `v.Error()` makes the handler itself fault, in every context and
after a present span has been annotated; no error is returned. -/
theorem recovery_faults_when_error_panics (stack : String) (ctx : Context) :
    RecoveryHandlerFunc stack ctx (PanicValue.runtimeError none)
      = Except.error Fault.errorMethodPanic := by
  cases ctx with
  | mk span => cases span <;> rfl

/-- On every other panic value (nil included), in every context (with or without a
span), the handler does not fault and returns a non-nil error, whose message is
`v.Error()` when the panic value is a `runtime.Error` and its `%v` formatting
otherwise; a span present in the context gets the attribute "stack". -/
theorem recovery_returns_error (stack : String) (ctx : Context) (p : PanicValue)
    (hp : ErrorReturns p) :
    ∃ (err : GoError) (effects : List Effect),
      RecoveryHandlerFunc stack ctx p = Except.ok (some err, effects) ∧
      (∀ text, p = PanicValue.runtimeError (some text) → err.message = text) ∧
      ((∀ error, p ≠ PanicValue.runtimeError error) → err.message = sprintfV p) ∧
      (∀ sp, FromContext ctx = some sp → Effect.setAttributes sp "stack" stack ∈ effects) ∧
      (FromContext ctx = none → ∀ sp key value, Effect.setAttributes sp key value ∉ effects) ∧
      Effect.logError (some err) stack "gRPC panicked!" ∈ effects := by
  cases ctx with
  | mk span =>
    cases p with
    | nil =>
      cases span <;>
        refine ⟨_, _, rfl, ?_, ?_, ?_, ?_, ?_⟩ <;>
        simp [FromContext, sprintfV, errorsNew, fmtErrorf]
    | other formatted =>
      cases span <;>
        refine ⟨_, _, rfl, ?_, ?_, ?_, ?_, ?_⟩ <;>
        simp [FromContext, sprintfV, errorsNew, fmtErrorf]
    | runtimeError error =>
      cases error with
      | none => exact absurd rfl hp
      | some text =>
        cases span <;>
          refine ⟨_, _, rfl, ?_, ?_, ?_, ?_, ?_⟩ <;>
          simp [FromContext, sprintfV, errorsNew, fmtErrorf]

/-- A runtime error whose `Error()` returns, recovered in a context with span 1. -/
theorem recovery_returns_error_sample :
    ∃ (err : GoError) (effects : List Effect),
      RecoveryHandlerFunc "goroutine 1" ⟨some 1⟩
          (PanicValue.runtimeError (some "index out of range"))
        = Except.ok (some err, effects) ∧
      err.message = "index out of range" ∧
      Effect.setAttributes 1 "stack" "goroutine 1" ∈ effects := by
  rcases recovery_returns_error "goroutine 1" ⟨some 1⟩
    (PanicValue.runtimeError (some "index out of range")) (by intro h; cases h)
    with ⟨err, effects, h1, h2, _, h4, _, _⟩
  exact ⟨err, effects, h1, h2 _ rfl, h4 1 rfl⟩

/-- The recovery of a nil panic value in a context without a span. -/
theorem recovery_nil_sample :
    RecoveryHandlerFunc "goroutine 1" ⟨none⟩ PanicValue.nil
      = Except.ok (some ⟨"<nil>"⟩,
          [Effect.logError (some ⟨"<nil>"⟩) "goroutine 1" "gRPC panicked!"]) := by
  rfl

end Tracing
